import Mathlib

/-! yolink-mcp: request router and upstream client

A shallow embedding of `mcp_server.go`, `yolink_client.go` and `types.go`.

* An input line is seen through the syntax scanner of `encoding/json`: it is
  either rejected (`none`) or it is one JSON value (`some j`).
* Values stored in a Go `interface{}` by `encoding/json` are `GoValue`s; JSON
  numbers become `float64` by correctly rounded conversion (`parseFloat64`).
* A response is the `MCPResponse` value handed to `json.Marshal`; the members
  that appear on the wire are given by `MCPResponse.wireKeys` (`omitempty`).
* The clock and the two upstream endpoints are explicit in `World`.
-/

namespace YoLink

/-! ## JSON input and Go values -/

/-- A JSON number literal, denoting `(-1)^neg * digits * 10^exp10`. -/
structure JNumber where
  neg : Bool
  digits : Nat
  exp10 : Int
deriving DecidableEq, Repr

/-- A JSON value as accepted by the scanner; object members keep their order
and their duplicates. -/
inductive JSON where
  | null
  | bool (b : Bool)
  | number (n : JNumber)
  | string (s : String)
  | array (elems : List JSON)
  | object (members : List (String × JSON))
deriving Repr

/-- A Go `float64`. A finite value is `(-1)^neg * mant * 2^exp` in IEEE form:
`2^52 ≤ mant < 2^53` and `-1074 ≤ exp ≤ 971`, or `mant < 2^52` and
`exp = -1074`. -/
inductive Float64 where
  | finite (neg : Bool) (mant : Nat) (exp : Int)
  | inf (neg : Bool)
  | nan
deriving DecidableEq, Repr

/-- What `encoding/json` stores in an `interface{}`: `nil`, `bool`, `float64`,
`string`, `[]interface{}` or `map[string]interface{}`. -/
inductive GoValue where
  | nil
  | bool (b : Bool)
  | float64 (f : Float64)
  | string (s : String)
  | slice (elems : List GoValue)
  | map (entries : List (String × GoValue))
deriving Repr

/-- A non-nil `map[string]interface{}`, one entry per key. -/
abbrev GoMap := List (String × GoValue)

/-- Go `m[k] = v`. -/
def mapSet (m : GoMap) (k : String) (v : GoValue) : GoMap :=
  match m with
  | [] => [(k, v)]
  | (k', v') :: rest => if k' = k then (k, v) :: rest else (k', v') :: mapSet rest k v

/-- Go `v, ok := m[k]` on a possibly nil map. -/
def mapGet (m : Option GoMap) (k : String) : Option GoValue :=
  match m with
  | none => none
  | some entries => entries.lookup k

/-- Go `m[k]` on a possibly nil map: the zero value `nil` when the key is absent. -/
def mapIndex (m : Option GoMap) (k : String) : GoValue :=
  (mapGet m k).getD GoValue.nil

/-! ## strconv.ParseFloat on a JSON number -/

/-- Number of binary digits of `n`, by halving (`fuel` bounds the number of steps). -/
def bitLenAux : Nat → Nat → Nat
  | 0, _ => 0
  | fuel + 1, n => if n = 0 then 0 else bitLenAux fuel (n / 2) + 1

/-- Number of binary digits of `n`. -/
def bitLen (n : Nat) : Nat := bitLenAux n n

/-- Whether `b * 2^d ≤ a`, for an integer `d`. -/
def scaledLE (b : Nat) (d : Int) (a : Nat) : Bool :=
  if 0 ≤ d then decide (b * 2 ^ d.toNat ≤ a) else decide (b ≤ a * 2 ^ (-d).toNat)

/-- The integer `k` with `2^k ≤ a / b < 2^(k+1)`, for positive `a` and `b`. -/
def floorLog2 (a b : Nat) : Int :=
  let d : Int := (bitLen a : Int) - (bitLen b : Int)
  if scaledLE b d a then d else d - 1

/-- The integer nearest to `a / b`, ties to the even one. -/
def roundHalfEven (a b : Nat) : Nat :=
  let q := a / b
  let r := a % b
  if 2 * r < b then q
  else if b < 2 * r then q + 1
  else if q % 2 = 0 then q else q + 1

/-- The `float64` with significand `m ≤ 2^53` and exponent `e`: a significand
of `2^53` is renormalised, and an exponent above 971 is an overflow (`none`). -/
def packFloat64 (neg : Bool) (m : Nat) (e : Int) : Option Float64 :=
  if m = 2 ^ 53 then
    (if 971 < e + 1 then none else some (Float64.finite neg (2 ^ 52) (e + 1)))
  else
    (if 971 < e then none else some (Float64.finite neg m e))

/-- The `float64` nearest to `± a / b` (ties to even), for positive `a` and `b`. -/
def roundRatio (neg : Bool) (a b : Nat) : Option Float64 :=
  let e := max (floorLog2 a b - 52) (-1074)
  if 0 ≤ e then packFloat64 neg (roundHalfEven a (b * 2 ^ e.toNat)) e
  else packFloat64 neg (roundHalfEven (a * 2 ^ (-e).toNat) b) e

/-- The conversion `strconv.ParseFloat(s, 64)` of a JSON number literal: the
nearest `float64`, ties to even; `none` when the result overflows (`ErrRange`). -/
def parseFloat64 (n : JNumber) : Option Float64 :=
  if n.digits = 0 then some (Float64.finite n.neg 0 (-1074))
  else if 0 ≤ n.exp10 then roundRatio n.neg (n.digits * 10 ^ n.exp10.toNat) 1
  else roundRatio n.neg n.digits (10 ^ (-n.exp10).toNat)

/-- The integer `z` as a JSON number literal. -/
def JNumber.ofInt (z : Int) : JNumber :=
  { neg := decide (z < 0), digits := z.natAbs, exp10 := 0 }

/-- The integer a `float64` holds, when it holds one. -/
def Float64.intValue : Float64 → Option Int
  | Float64.finite neg mant exp =>
    if 0 ≤ exp then some ((if neg then -1 else 1) * ((mant * 2 ^ exp.toNat : Nat) : Int))
    else if mant % 2 ^ (-exp).toNat = 0 then
      some ((if neg then -1 else 1) * ((mant / 2 ^ (-exp).toNat : Nat) : Int))
    else none
  | Float64.inf _ => none
  | Float64.nan => none

/-! ## Decoding into `interface{}` -/

mutual
/-- Decoding of a JSON value into an `interface{}` (`decodeState.valueInterface`);
`none` when an error is saved (a number out of the `float64` range). -/
def decodeInterface : JSON → Option GoValue
  | JSON.null => some GoValue.nil
  | JSON.bool b => some (GoValue.bool b)
  | JSON.number n =>
    match parseFloat64 n with
    | some f => some (GoValue.float64 f)
    | none => none
  | JSON.string s => some (GoValue.string s)
  | JSON.array elems =>
    match decodeElems elems with
    | some vs => some (GoValue.slice vs)
    | none => none
  | JSON.object members =>
    match decodeMembers members [] with
    | some m => some (GoValue.map m)
    | none => none
/-- Decoding of the elements of a JSON array (`decodeState.arrayInterface`). -/
def decodeElems : List JSON → Option (List GoValue)
  | [] => some []
  | j :: rest =>
    match decodeInterface j, decodeElems rest with
    | some v, some vs => some (v :: vs)
    | _, _ => none
/-- Decoding of the members of a JSON object into the map `m`
(`decodeState.objectInterface`, and `decodeState.object` on a map). -/
def decodeMembers : List (String × JSON) → GoMap → Option GoMap
  | [], m => some m
  | (k, j) :: rest, m =>
    match decodeInterface j with
    | some v => decodeMembers rest (mapSet m k v)
    | none => none
end

mutual
/-- Whether `json.Marshal` accepts the value: it rejects `NaN` and the infinities. -/
def GoValue.marshalable : GoValue → Bool
  | GoValue.nil => true
  | GoValue.bool _ => true
  | GoValue.float64 (Float64.finite _ _ _) => true
  | GoValue.float64 (Float64.inf _) => false
  | GoValue.float64 Float64.nan => false
  | GoValue.string _ => true
  | GoValue.slice elems => marshalableElems elems
  | GoValue.map entries => marshalableEntries entries
/-- All the elements of a slice are accepted by `json.Marshal`. -/
def marshalableElems : List GoValue → Bool
  | [] => true
  | v :: rest => v.marshalable && marshalableElems rest
/-- All the values of a map are accepted by `json.Marshal`. -/
def marshalableEntries : List (String × GoValue) → Bool
  | [] => true
  | (_, v) :: rest => v.marshalable && marshalableEntries rest
end

/-! ## types.go -/

/-- Go `YoLinkAuthResponse`. `ExpiresIn` is a Go `int` (64 bits). -/
structure YoLinkAuthResponse where
  AccessToken : String
  TokenType : String
  ExpiresIn : Int
  Code : Int
  Message : String
deriving Repr

/-- Go `YoLinkDevice`. -/
structure YoLinkDevice where
  DeviceID : String
  DeviceUDID : String
  DeviceName : String
  Token : String
  DeviceType : String
  ParentDeviceID : GoValue
  ModelName : String
  ServiceZone : String
deriving Repr

/-- The anonymous struct of `YoLinkDeviceListResponse.Data`. -/
structure DeviceListData where
  Devices : List YoLinkDevice
deriving Repr

/-- Go `YoLinkDeviceListResponse`. -/
structure YoLinkDeviceListResponse where
  Code : String
  Message : String
  Time : Int
  MsgID : Int
  Method : String
  Desc : String
  Data : DeviceListData
deriving Repr

/-- Go `YoLinkDeviceStatusResponse`; `Data` is a possibly nil map. -/
structure YoLinkDeviceStatusResponse where
  Code : String
  Message : String
  Time : Int
  MsgID : Int
  Method : String
  Desc : String
  Data : Option GoMap
deriving Repr

/-- Go `MCPRequest`; `Params` is a possibly nil map. -/
structure MCPRequest where
  JSONRPC : String
  ID : GoValue
  Method : String
  Params : Option GoMap
deriving Repr

/-- Go `MCPError`. -/
structure MCPError where
  Code : Int
  Message : String
deriving DecidableEq, Repr

/-- Go `MCPTool`. -/
structure MCPTool where
  Name : String
  Description : String
  InputSchema : GoMap
deriving Repr

/-- The anonymous struct of `MCPCapabilities.Tools`. -/
structure MCPCapabilitiesTools where
  ListChanged : Bool
deriving DecidableEq, Repr

/-- Go `MCPCapabilities`. -/
structure MCPCapabilities where
  Tools : MCPCapabilitiesTools
deriving DecidableEq, Repr

/-- The anonymous struct of `MCPInitializeResult.ServerInfo`. -/
structure MCPServerInfo where
  Name : String
  Version : String
deriving DecidableEq, Repr

/-- Go `MCPInitializeResult`. -/
structure MCPInitializeResult where
  ProtocolVersion : String
  Capabilities : MCPCapabilities
  ServerInfo : MCPServerInfo
deriving DecidableEq, Repr

/-- Go `MCPToolResult`; a content block is a map from strings to strings here,
as every block the server builds is. -/
structure MCPToolResult where
  Content : List (List (String × String))
  IsError : Bool
deriving DecidableEq, Repr

/-- The dynamic value of `MCPResponse.Result` when it is not nil. -/
inductive ResultValue where
  | initializeResult (r : MCPInitializeResult)
  | toolsList (tools : List MCPTool)
  | toolResult (r : MCPToolResult)
deriving Repr

/-- Go `MCPResponse`; `Result` is a possibly nil interface, `Error` a possibly
nil pointer. -/
structure MCPResponse where
  JSONRPC : String
  ID : GoValue
  Result : Option ResultValue
  Error : Option MCPError
deriving Repr

/-- The member names of the JSON object `json.Marshal` writes for a response:
`result` and `error` are tagged `omitempty`. -/
def MCPResponse.wireKeys (r : MCPResponse) : List String :=
  ["jsonrpc", "id"] ++ (if r.Result.isSome then ["result"] else [])
    ++ (if r.Error.isSome then ["error"] else [])

/-! ## json.Unmarshal into `MCPRequest` -/

/-- Case folding of one rune, as `encoding/json` folds the runes of an object
key before it compares the key with a field name. Only the runes that fold to
an ASCII letter are folded here; the field names of `MCPRequest` are ASCII, so
the comparison with them is the one Go makes. -/
def foldRune (c : Char) : Char :=
  if 97 ≤ c.toNat ∧ c.toNat ≤ 122 then Char.ofNat (c.toNat - 32)
  else if c.toNat = 0x17F then 'S'
  else if c.toNat = 0x212A then 'K'
  else c

/-- Whether the object key `key` selects the struct field tagged `name`. -/
def equalFold (key name : String) : Bool :=
  key.toList.map foldRune == name.toList.map foldRune

/-- The fields of `MCPRequest`. -/
inductive RequestField where
  | jsonrpc
  | id
  | method
  | params
deriving DecidableEq, Repr

/-- The field of `MCPRequest` an object key selects, if any. -/
def requestField (key : String) : Option RequestField :=
  if equalFold key "jsonrpc" then some RequestField.jsonrpc
  else if equalFold key "id" then some RequestField.id
  else if equalFold key "method" then some RequestField.method
  else if equalFold key "params" then some RequestField.params
  else none

/-- Decoding into a `string` field holding `cur`: `null` leaves it, a JSON
string sets it, anything else is an `UnmarshalTypeError`. -/
def decodeStringField (cur : String) : JSON → Option String
  | JSON.null => some cur
  | JSON.string s => some s
  | _ => none

/-- Decoding into a `map[string]interface{}` field holding `cur`: `null` makes
it nil, an object is decoded into the map already there (a new one when nil),
anything else is an `UnmarshalTypeError`. -/
def decodeMapField (cur : Option GoMap) : JSON → Option (Option GoMap)
  | JSON.null => some none
  | JSON.object members =>
    match decodeMembers members (cur.getD []) with
    | some m => some (some m)
    | none => none
  | _ => none

/-- Decoding of one object member into the request; members whose key selects
no field are skipped. -/
def decodeRequestMember (req : MCPRequest) (key : String) (j : JSON) : Option MCPRequest :=
  match requestField key with
  | none => some req
  | some RequestField.jsonrpc =>
    match decodeStringField req.JSONRPC j with
    | some v => some { req with JSONRPC := v }
    | none => none
  | some RequestField.id =>
    match decodeInterface j with
    | some v => some { req with ID := v }
    | none => none
  | some RequestField.method =>
    match decodeStringField req.Method j with
    | some v => some { req with Method := v }
    | none => none
  | some RequestField.params =>
    match decodeMapField req.Params j with
    | some v => some { req with Params := v }
    | none => none

/-- Decoding of the members of an object, in order, into the request. -/
def decodeRequestMembers : List (String × JSON) → MCPRequest → Option MCPRequest
  | [], req => some req
  | (key, j) :: rest, req =>
    match decodeRequestMember req key j with
    | some req' => decodeRequestMembers rest req'
    | none => none

/-- The zero value of `MCPRequest` (`var request MCPRequest`). -/
def MCPRequest.zero : MCPRequest :=
  { JSONRPC := "", ID := GoValue.nil, Method := "", Params := none }

/-- Go `json.Unmarshal([]byte(requestStr), &request)` on a zero request: `none`
when it returns an error. A line the scanner rejects is a `SyntaxError`; the
value `null` is accepted and stores nothing; another value that is not an
object is an `UnmarshalTypeError`. -/
def unmarshalRequest : Option JSON → Option MCPRequest
  | none => none
  | some JSON.null => some MCPRequest.zero
  | some (JSON.object members) => decodeRequestMembers members MCPRequest.zero
  | some _ => none

/-! ## The world: clock and upstream endpoints -/

/-- An instant (`time.Time`), in nanoseconds since the zero time. -/
abbrev Time := Int

/-- What `httpClient.Do` gives: an error, or a response with its status code,
the text of its body and what the body decodes to. -/
inductive HTTPResult (α : Type) where
  | failed (err : String)
  | response (StatusCode : Int) (body : String) (decoded : α)

/-- What the body of an API response decodes to, as a device list envelope and
as a device status envelope (`json.NewDecoder(resp.Body).Decode`). -/
structure APIBody where
  asDeviceList : Except String YoLinkDeviceListResponse
  asDeviceStatus : Except String YoLinkDeviceStatusResponse

/-- The body of a request to the token endpoint. -/
structure TokenRequest where
  grant_type : String
  client_id : String
  client_secret : String
deriving DecidableEq, Repr

/-- The payload map of a request to the API endpoint. -/
structure Payload where
  method : String
  targetDevice : Option String
  token : Option String
  timestamp : Int
deriving DecidableEq, Repr

/-- A request to the API endpoint: its `Authorization` header and its payload. -/
structure APIRequest where
  authorization : String
  payload : Payload
deriving DecidableEq, Repr

/-- The environment of the client. `clock n` is what the `n`-th call of
`time.Now()` returns; an endpoint answers its `n`-th request `r` with
`tokenEndpoint n r` or `apiEndpoint n r`; the requests sent so far are logged. -/
structure World where
  clock : Nat → Time
  clockReads : Nat
  tokenEndpoint : Nat → TokenRequest → HTTPResult (Except String YoLinkAuthResponse)
  tokenCalls : List TokenRequest
  apiEndpoint : Nat → APIRequest → HTTPResult APIBody
  apiCalls : List APIRequest

/-- Go `time.Now()`. -/
def World.now (w : World) : Time × World :=
  (w.clock w.clockReads, { w with clockReads := w.clockReads + 1 })

/-- A POST to the token endpoint. -/
def World.postToken (w : World) (r : TokenRequest) :
    HTTPResult (Except String YoLinkAuthResponse) × World :=
  (w.tokenEndpoint w.tokenCalls.length r, { w with tokenCalls := w.tokenCalls ++ [r] })

/-- A POST to the API endpoint. -/
def World.postAPI (w : World) (r : APIRequest) : HTTPResult APIBody × World :=
  (w.apiEndpoint w.apiCalls.length r, { w with apiCalls := w.apiCalls ++ [r] })

/-- Go `t.Unix()`: seconds since 1970, the zero time being year 1. -/
def unixSeconds (t : Time) : Int :=
  Int.fdiv t 1000000000 - 62135596800

/-- Reduction of an integer to the range of `int64` (wrap-around). -/
def wrapInt64 (x : Int) : Int :=
  (x + 2 ^ 63) % 2 ^ 64 - 2 ^ 63

/-! ## yolink_client.go -/

/-- Go `YoLinkClient` (the HTTP client is the `World`). -/
structure YoLinkClient where
  clientID : String
  clientSecret : String
  accessToken : String
  tokenExpiry : Time
deriving DecidableEq, Repr

/-- The test `c.accessToken != "" && time.Now().Before(c.tokenExpiry)`; the
clock is read only when the token is not empty. -/
def tokenStillValid (c : YoLinkClient) (w : World) : Bool × World :=
  if c.accessToken ≠ "" then
    let (t, w1) := w.now
    (decide (t < c.tokenExpiry), w1)
  else (false, w)

/-- The payload `authenticate` posts to the token endpoint. -/
def tokenRequest (c : YoLinkClient) : TokenRequest :=
  { grant_type := "client_credentials", client_id := c.clientID,
    client_secret := c.clientSecret }

/-- The second part of `authenticate`, after the validity test has failed: the
POST to the token endpoint and the handling of its response. -/
def requestToken (c : YoLinkClient) (w : World) : Option String × YoLinkClient × World :=
  match w.postToken (tokenRequest c) with
  | (HTTPResult.failed err, w2) => (some ("failed to authenticate: " ++ err), c, w2)
  | (HTTPResult.response StatusCode body decoded, w2) =>
    if StatusCode ≠ 200 then
      (some ("authentication failed with status " ++ toString StatusCode ++ ": " ++ body),
        c, w2)
    else
      match decoded with
      | Except.error err => (some ("failed to decode auth response: " ++ err), c, w2)
      | Except.ok authResp =>
        (none,
          { c with accessToken := authResp.AccessToken,
                   tokenExpiry := w2.now.1 + wrapInt64 (authResp.ExpiresIn * 1000000000) },
          w2.now.2)

/-- Go `YoLinkClient.authenticate`: the error it returns (`none` for nil), the
client and the world afterwards. -/
def authenticate (c : YoLinkClient) (w : World) : Option String × YoLinkClient × World :=
  if (tokenStillValid c w).1 then (none, c, (tokenStillValid c w).2)
  else requestToken c (tokenStillValid c w).2

/-- Go `YoLinkClient.makeRequest`: the response (status code, body text, decoded
body) or the error, the client and the world afterwards. -/
def makeRequest (c : YoLinkClient) (w : World) (payload : Payload) :
    Except String (Int × String × APIBody) × YoLinkClient × World :=
  match authenticate c w with
  | (some err, c1, w1) => (Except.error err, c1, w1)
  | (none, c1, w1) =>
    match w1.postAPI { authorization := "Bearer " ++ c1.accessToken, payload := payload } with
    | (HTTPResult.failed err, w2) => (Except.error ("request failed: " ++ err), c1, w2)
    | (HTTPResult.response StatusCode body decoded, w2) =>
      (Except.ok (StatusCode, body, decoded), c1, w2)

/-- The payload of the device list call, built at time `t`. -/
def deviceListPayload (t : Time) : Payload :=
  { method := "Home.getDeviceList", targetDevice := none, token := none,
    timestamp := unixSeconds t }

/-- The payload of the device status call, built at time `t`. -/
def deviceStatusPayload (deviceType deviceID deviceToken : String) (t : Time) : Payload :=
  { method := deviceType ++ ".getState", targetDevice := some deviceID,
    token := some deviceToken, timestamp := unixSeconds t }

/-- Go `YoLinkClient.GetDevices`. -/
def GetDevices (c : YoLinkClient) (w : World) :
    Except String (List YoLinkDevice) × YoLinkClient × World :=
  match makeRequest c w.now.2 (deviceListPayload w.now.1) with
  | (Except.error err, c1, w1) => (Except.error err, c1, w1)
  | (Except.ok (StatusCode, body, decoded), c1, w1) =>
    if StatusCode ≠ 200 then
      (Except.error ("API request failed with status " ++ toString StatusCode ++ ": " ++ body),
        c1, w1)
    else
      match decoded.asDeviceList with
      | Except.error err =>
        (Except.error ("failed to decode device list response: " ++ err), c1, w1)
      | Except.ok deviceResp =>
        if deviceResp.Code ≠ "000000" then
          (Except.error ("API error: " ++ deviceResp.Code ++ " - " ++ deviceResp.Message),
            c1, w1)
        else (Except.ok deviceResp.Data.Devices, c1, w1)

/-- The loop of `GetDeviceStatus` over the device list: the token and the type
of the first device whose id is `deviceID` (the loop breaks there), two empty
strings when there is none. -/
def findDevice (deviceID : String) : List YoLinkDevice → String × String
  | [] => ("", "")
  | device :: rest =>
    if device.DeviceID = deviceID then (device.Token, device.DeviceType)
    else findDevice deviceID rest

/-- The second part of `GetDeviceStatus`, once the device token is known not
to be empty: the status call and the handling of its response. -/
def requestDeviceStatus (c : YoLinkClient) (w : World)
    (deviceType deviceID deviceToken : String) :
    Except String (Option GoMap) × YoLinkClient × World :=
  match makeRequest c w.now.2 (deviceStatusPayload deviceType deviceID deviceToken w.now.1) with
  | (Except.error err, c2, w3) => (Except.error err, c2, w3)
  | (Except.ok (StatusCode, body, decoded), c2, w3) =>
    if StatusCode ≠ 200 then
      (Except.error
        ("API request failed with status " ++ toString StatusCode ++ ": " ++ body),
        c2, w3)
    else
      match decoded.asDeviceStatus with
      | Except.error err =>
        (Except.error ("failed to decode device status response: " ++ err), c2, w3)
      | Except.ok statusResp =>
        if statusResp.Code ≠ "000000" then
          (Except.error ("API error: " ++ statusResp.Code ++ " - " ++ statusResp.Desc),
            c2, w3)
        else (Except.ok statusResp.Data, c2, w3)

/-- Go `YoLinkClient.GetDeviceStatus`. -/
def GetDeviceStatus (c : YoLinkClient) (w : World) (deviceID : String) :
    Except String (Option GoMap) × YoLinkClient × World :=
  match GetDevices c w with
  | (Except.error err, c1, w1) => (Except.error ("failed to get devices: " ++ err), c1, w1)
  | (Except.ok devices, c1, w1) =>
    if (findDevice deviceID devices).1 = "" then
      (Except.error "device not found or device token not available", c1, w1)
    else
      requestDeviceStatus c1 w1 (findDevice deviceID devices).2 deviceID
        (findDevice deviceID devices).1

/-! ## mcp_server.go -/

/-- Go `MCPServer`. -/
structure MCPServer where
  yolinkClient : YoLinkClient
  tools : List MCPTool
deriving Repr

/-- The text `json.MarshalIndent` writes for a device list and for a status
map; the server only embeds these texts in its messages. -/
structure JSONText where
  devices : List YoLinkDevice → String
  status : Option GoMap → String

/-- The tool list `initializeTools` stores in the server. -/
def initializeTools : List MCPTool :=
  [ { Name := "enumerate_devices",
      Description := "List all YoLink devices in the account",
      InputSchema :=
        [("type", GoValue.string "object"), ("properties", GoValue.map []),
         ("required", GoValue.slice [])] },
    { Name := "get_device_status",
      Description := "Get the current status of a specific YoLink device",
      InputSchema :=
        [("type", GoValue.string "object"),
         ("properties", GoValue.map
            [("device_id", GoValue.map
                [("type", GoValue.string "string"),
                 ("description", GoValue.string "The ID of the device to get status for")])]),
         ("required", GoValue.slice [GoValue.string "device_id"])] } ]

/-- Whether `json.Marshal` accepts a result value. -/
def ResultValue.marshalable : ResultValue → Bool
  | ResultValue.initializeResult _ => true
  | ResultValue.toolsList tools => tools.all (fun t => marshalableEntries t.InputSchema)
  | ResultValue.toolResult _ => true

/-- Whether `json.Marshal` accepts a response. -/
def MCPResponse.marshalable (r : MCPResponse) : Bool :=
  r.ID.marshalable && (match r.Result with
    | none => true
    | some v => v.marshalable)

/-- Go `json.Marshal(response)`: the response that is written, or the error. -/
def jsonMarshal (response : MCPResponse) : Except String MCPResponse :=
  if response.marshalable then Except.ok response
  else Except.error "json: unsupported value"

/-- Go `json.MarshalIndent(devices, "", "  ")`. -/
def marshalDevices (enc : JSONText) (devices : List YoLinkDevice) : Except String String :=
  if devices.all (fun d => d.ParentDeviceID.marshalable) then Except.ok (enc.devices devices)
  else Except.error "json: unsupported value"

/-- Go `json.MarshalIndent(status, "", "  ")`. -/
def marshalStatus (enc : JSONText) (status : Option GoMap) : Except String String :=
  if (match status with
      | none => true
      | some m => marshalableEntries m) then Except.ok (enc.status status)
  else Except.error "json: unsupported value"

/-- Go `MCPServer.createErrorResponse`. -/
def createErrorResponse (id : GoValue) (code : Int) (message : String) :
    Except String MCPResponse :=
  let response : MCPResponse :=
    { JSONRPC := "2.0", ID := id, Result := none,
      Error := some { Code := code, Message := message } }
  match jsonMarshal response with
  | Except.error err => Except.error ("failed to marshal error response: " ++ err)
  | Except.ok line => Except.ok line

/-- The end of the three handlers: marshal a response carrying `result`, and
answer with an internal error when that fails. -/
def respondResult (id : GoValue) (result : ResultValue) : Except String MCPResponse :=
  let response : MCPResponse :=
    { JSONRPC := "2.0", ID := id, Result := some result, Error := none }
  match jsonMarshal response with
  | Except.error _ => createErrorResponse id (-32603) "Internal error"
  | Except.ok line => Except.ok line

/-- Go `MCPServer.handleInitialize`. -/
def handleInitialize (request : MCPRequest) : Except String MCPResponse :=
  let result : MCPInitializeResult :=
    { ProtocolVersion := "2024-11-05",
      Capabilities := { Tools := { ListChanged := false } },
      ServerInfo := { Name := "yolink-mcp-server", Version := "1.0.0" } }
  respondResult request.ID (ResultValue.initializeResult result)

/-- Go `MCPServer.handleToolsList`. -/
def handleToolsList (s : MCPServer) (request : MCPRequest) : Except String MCPResponse :=
  respondResult request.ID (ResultValue.toolsList s.tools)

/-- A tool result with one text block. -/
def textResult (text : String) (isError : Bool) : MCPToolResult :=
  { Content := [[("type", "text"), ("text", text)]], IsError := isError }

/-- Go `MCPServer.enumerateDevices`: the tool result, the error (`none` for
nil), the client and the world afterwards. -/
def enumerateDevices (enc : JSONText) (c : YoLinkClient) (w : World)
    (_arguments : Option GoMap) : (MCPToolResult × Option String) × YoLinkClient × World :=
  match GetDevices c w with
  | (Except.error err, c1, w1) =>
    ((textResult ("Failed to enumerate devices: " ++ err) true, none), c1, w1)
  | (Except.ok devices, c1, w1) =>
    match marshalDevices enc devices with
    | Except.error err =>
      ((textResult ("Failed to serialize devices: " ++ err) true, none), c1, w1)
    | Except.ok devicesJSON =>
      ((textResult ("Found " ++ toString devices.length ++ " YoLink devices:\n\n"
          ++ devicesJSON) false, none), c1, w1)

/-- Go `MCPServer.getDeviceStatus`. -/
def getDeviceStatus (enc : JSONText) (c : YoLinkClient) (w : World)
    (arguments : Option GoMap) : (MCPToolResult × Option String) × YoLinkClient × World :=
  match mapGet arguments "device_id" with
  | none => ((textResult "Missing required parameter: device_id" true, none), c, w)
  | some (GoValue.string deviceID) =>
    match GetDeviceStatus c w deviceID with
    | (Except.error err, c1, w1) =>
      ((textResult ("Failed to get device status: " ++ err) true, none), c1, w1)
    | (Except.ok status, c1, w1) =>
      match marshalStatus enc status with
      | Except.error err =>
        ((textResult ("Failed to serialize device status: " ++ err) true, none), c1, w1)
      | Except.ok statusJSON =>
        ((textResult ("Status for device " ++ deviceID ++ ":\n\n" ++ statusJSON) false, none),
          c1, w1)
  | some _ => ((textResult "device_id must be a string" true, none), c, w)

/-- The end of `handleToolCall`, after the tool has run. -/
def finishToolCall (request : MCPRequest) (result : MCPToolResult) (err : Option String) :
    Except String MCPResponse :=
  match err with
  | some e => createErrorResponse request.ID (-32603) ("Tool execution failed: " ++ e)
  | none => respondResult request.ID (ResultValue.toolResult result)

/-- Go `MCPServer.handleToolCall`. -/
def handleToolCall (enc : JSONText) (s : MCPServer) (w : World) (request : MCPRequest) :
    Except String MCPResponse × MCPServer × World :=
  match mapGet request.Params "name" with
  | none => (createErrorResponse request.ID (-32602) "Missing 'name' parameter", s, w)
  | some (GoValue.string toolName) =>
    let argumentsInterface := mapIndex request.Params "arguments"
    let checked : Option (Option GoMap) :=
      match argumentsInterface with
      | GoValue.nil => some none
      | GoValue.map m => some (some m)
      | _ => none
    match checked with
    | none =>
      (createErrorResponse request.ID (-32602) "Invalid 'arguments' parameter type", s, w)
    | some arguments =>
      if toolName = "enumerate_devices" then
        match enumerateDevices enc s.yolinkClient w arguments with
        | ((result, err), c1, w1) =>
          (finishToolCall request result err, { s with yolinkClient := c1 }, w1)
      else if toolName = "get_device_status" then
        match getDeviceStatus enc s.yolinkClient w arguments with
        | ((result, err), c1, w1) =>
          (finishToolCall request result err, { s with yolinkClient := c1 }, w1)
      else (createErrorResponse request.ID (-32601) "Unknown tool", s, w)
  | some _ => (createErrorResponse request.ID (-32602) "Invalid 'name' parameter type", s, w)

/-- Go `MCPServer.HandleRequest`: the response line (the value `json.Marshal`
writes) or the error returned to the caller, the server and the world
afterwards. `requestStr` is the input line as the scanner sees it. -/
def HandleRequest (enc : JSONText) (s : MCPServer) (w : World) (requestStr : Option JSON) :
    Except String MCPResponse × MCPServer × World :=
  match unmarshalRequest requestStr with
  | none => (createErrorResponse GoValue.nil (-32700) "Parse error", s, w)
  | some request =>
    if request.Method = "initialize" then (handleInitialize request, s, w)
    else if request.Method = "tools/list" then (handleToolsList s request, s, w)
    else if request.Method = "tools/call" then handleToolCall enc s w request
    else (createErrorResponse request.ID (-32601) "Method not found", s, w)

/-! ## Observations and sample values -/

/-- The error code a response line carries, if it carries an error member. -/
def errorCode (r : Except String MCPResponse) : Option Int :=
  match r with
  | Except.ok resp => resp.Error.map (fun e => e.Code)
  | Except.error _ => none

/-- The id a response line carries. -/
def responseID (r : Except String MCPResponse) : Option GoValue :=
  match r with
  | Except.ok resp => some resp.ID
  | Except.error _ => none

/-- Whether a JSON value is an object. -/
def JSON.isObject : JSON → Bool
  | JSON.object _ => true
  | _ => false

/-- Whether a JSON value is `null`. -/
def JSON.isNull : JSON → Bool
  | JSON.null => true
  | _ => false

/-- The value of the last member of an object whose key selects the field `f`. -/
def lastField (f : RequestField) : List (String × JSON) → Option JSON
  | [] => none
  | (key, j) :: rest =>
    match lastField f rest with
    | some j' => some j'
    | none => if requestField key = some f then some j else none

/-- The JSON string `s`. -/
def jstr (s : String) : JSON := JSON.string s

/-- The JSON number of the integer `z`. -/
def jint (z : Int) : JSON := JSON.number (JNumber.ofInt z)

/-- A request object with the four usual members. -/
def requestObject (id : JSON) (method : String) (params : JSON) : Option JSON :=
  some (JSON.object
    [("jsonrpc", jstr "2.0"), ("id", id), ("method", jstr method), ("params", params)])

/-- A clock that starts at Unix time 1750000000 and advances one second per reading. -/
def sampleClock (n : Nat) : Time :=
  63885596800000000000 + 1000000000 * (n : Int)

/-- A world whose endpoints refuse every connection. -/
def offlineWorld : World :=
  { clock := sampleClock, clockReads := 0,
    tokenEndpoint := fun _ _ => HTTPResult.failed "connection refused",
    tokenCalls := [],
    apiEndpoint := fun _ _ => HTTPResult.failed "connection refused",
    apiCalls := [] }

/-- Placeholder texts for the indented JSON the server embeds in its messages. -/
def plainText : JSONText :=
  { devices := fun _ => "[]", status := fun _ => "{}" }

/-- A client that has not authenticated yet. -/
def freshClient : YoLinkClient :=
  { clientID := "id", clientSecret := "secret", accessToken := "", tokenExpiry := 0 }

/-- The server `NewMCPServer` builds around a fresh client. -/
def freshServer : MCPServer :=
  { yolinkClient := freshClient, tools := initializeTools }

/-- A well-formed response line for the request id `id`: it carries
`jsonrpc = "2.0"`, the id, and either a result or an error, not both. -/
def WellFormedResponse (id : GoValue) (x : Except String MCPResponse) : Prop :=
  ∃ r, x = Except.ok r ∧ r.JSONRPC = "2.0" ∧ r.ID = id ∧
    ((r.Result.isSome = true ∧ r.Error = none) ∨ (r.Result = none ∧ r.Error.isSome = true))

/-- The token stage of `authenticate c w` succeeds: the cached token is still
valid, or the token endpoint answers 200 with a decodable body. -/
def TokenStageOK (c : YoLinkClient) (w : World) : Prop :=
  (tokenStillValid c w).1 = true ∨
  ∃ body authResp,
    (tokenStillValid c w).2.tokenEndpoint (tokenStillValid c w).2.tokenCalls.length
      (tokenRequest c) = HTTPResult.response 200 body (Except.ok authResp)

/-- The API stage of `makeRequest c w payload` is reached and the endpoint
answers with `StatusCode`, `body` and `decoded`. -/
def APIStageReply (c : YoLinkClient) (w : World) (payload : Payload)
    (StatusCode : Int) (body : String) (decoded : APIBody) : Prop :=
  TokenStageOK c w ∧
  (authenticate c w).1 = none ∧
  (authenticate c w).2.2.apiEndpoint (authenticate c w).2.2.apiCalls.length
      { authorization := "Bearer " ++ (authenticate c w).2.1.accessToken,
        payload := payload } = HTTPResult.response StatusCode body decoded

/-- Every upstream stage of `GetDevices c w` succeeds and yields `devices`: the
token stage, then an API answer 200 whose body decodes to an envelope with code
`"000000"` holding `devices`. -/
def DeviceListOK (c : YoLinkClient) (w : World) (devices : List YoLinkDevice) : Prop :=
  ∃ body decoded resp,
    APIStageReply c w.now.2 (deviceListPayload w.now.1) 200 body decoded ∧
    decoded.asDeviceList = Except.ok resp ∧ resp.Code = "000000" ∧
    resp.Data.Devices = devices

/-- Every upstream stage of the status call succeeds and yields `data`. -/
def DeviceStatusOK (c : YoLinkClient) (w : World) (deviceType deviceID deviceToken : String)
    (data : Option GoMap) : Prop :=
  ∃ body decoded resp,
    APIStageReply c w.now.2 (deviceStatusPayload deviceType deviceID deviceToken w.now.1)
      200 body decoded ∧
    decoded.asDeviceStatus = Except.ok resp ∧ resp.Code = "000000" ∧ resp.Data = data

/-- A token response carrying `token`, valid for `expiresIn` seconds. -/
def tokenResponse (token : String) (expiresIn : Int) :
    HTTPResult (Except String YoLinkAuthResponse) :=
  HTTPResult.response 200 ""
    (Except.ok { AccessToken := token, TokenType := "bearer", ExpiresIn := expiresIn,
                 Code := 0, Message := "" })

/-- The body of an API answer with envelope code `"000000"`: a device list
holding `devices`, or the status `{"state":"open"}`. -/
def successBody (devices : List YoLinkDevice) : APIBody :=
  { asDeviceList := Except.ok
      { Code := "000000", Message := "", Time := 0, MsgID := 0,
        Method := "Home.getDeviceList", Desc := "Success", Data := { Devices := devices } },
    asDeviceStatus := Except.ok
      { Code := "000000", Message := "", Time := 0, MsgID := 0, Method := "getState",
        Desc := "Success", Data := some [("state", GoValue.string "open")] } }

/-- A world whose token endpoint answers its `n`-th request with `auth n`, and
whose API endpoint answers every request with 200 and `successBody devices`. -/
def servingWorld (auth : Nat → HTTPResult (Except String YoLinkAuthResponse))
    (devices : List YoLinkDevice) : World :=
  { clock := sampleClock, clockReads := 0,
    tokenEndpoint := fun n _ => auth n,
    tokenCalls := [],
    apiEndpoint := fun _ _ => HTTPResult.response 200 "" (successBody devices),
    apiCalls := [] }

/-- A device with the given id, token and type. -/
def sampleDevice (id token type : String) : YoLinkDevice :=
  { DeviceID := id, DeviceUDID := "", DeviceName := "", Token := token, DeviceType := type,
    ParentDeviceID := GoValue.nil, ModelName := "", ServiceZone := "" }

/-! # Theorems -/

theorem marshalableEntries_mapSet (m : GoMap) (k : String) (v : GoValue)
    (hm : marshalableEntries m = true) (hv : v.marshalable = true) :
    marshalableEntries (mapSet m k v) = true := by
  induction m with
  | nil => simp [mapSet, marshalableEntries, hv]
  | cons kv rest ih =>
    obtain ⟨k', v'⟩ := kv
    simp only [marshalableEntries, Bool.and_eq_true] at hm
    unfold mapSet
    split
    · simp [marshalableEntries, hv, hm.2]
    · simp [marshalableEntries, hm.1, ih hm.2]

theorem packFloat64_finite (neg : Bool) (m : Nat) (e : Int) (f : Float64)
    (h : packFloat64 neg m e = some f) : ∃ s m' e', f = Float64.finite s m' e' := by
  unfold packFloat64 at h
  split_ifs at h <;> exact ⟨_, _, _, (Option.some.inj h).symm⟩

theorem roundRatio_finite (neg : Bool) (a b : Nat) (f : Float64)
    (h : roundRatio neg a b = some f) : ∃ s m e, f = Float64.finite s m e := by
  unfold roundRatio at h
  dsimp only at h
  split_ifs at h <;> exact packFloat64_finite _ _ _ f h

theorem parseFloat64_finite (n : JNumber) (f : Float64) (h : parseFloat64 n = some f) :
    ∃ s m e, f = Float64.finite s m e := by
  unfold parseFloat64 at h
  split_ifs at h
  · exact ⟨_, _, _, (Option.some.inj h).symm⟩
  · exact roundRatio_finite _ _ _ f h
  · exact roundRatio_finite _ _ _ f h

mutual
theorem decodeInterface_marshalable : ∀ (j : JSON) (v : GoValue),
    decodeInterface j = some v → v.marshalable = true
  | JSON.null, v, h => by
    simp [decodeInterface] at h; subst h; simp [GoValue.marshalable]
  | JSON.bool b, v, h => by
    simp [decodeInterface] at h; subst h; simp [GoValue.marshalable]
  | JSON.number n, v, h => by
    unfold decodeInterface at h
    split at h
    · rename_i f hf
      simp at h; subst h
      obtain ⟨s, m, e, rfl⟩ := parseFloat64_finite n f hf
      simp [GoValue.marshalable]
    · simp at h
  | JSON.string s, v, h => by
    simp [decodeInterface] at h; subst h; simp [GoValue.marshalable]
  | JSON.array elems, v, h => by
    unfold decodeInterface at h
    split at h
    · rename_i vs hvs
      simp at h; subst h
      simp only [GoValue.marshalable]
      exact decodeElems_marshalable elems vs hvs
    · simp at h
  | JSON.object members, v, h => by
    unfold decodeInterface at h
    split at h
    · rename_i m hm
      simp at h; subst h
      simp only [GoValue.marshalable]
      exact decodeMembers_marshalable members [] m (by simp [marshalableEntries]) hm
    · simp at h
theorem decodeElems_marshalable : ∀ (elems : List JSON) (vs : List GoValue),
    decodeElems elems = some vs → marshalableElems vs = true
  | [], vs, h => by
    simp [decodeElems] at h; subst h; simp [marshalableElems]
  | j :: rest, vs, h => by
    unfold decodeElems at h
    split at h
    · rename_i v vs' hv hvs
      simp at h; subst h
      simp only [marshalableElems, Bool.and_eq_true]
      exact ⟨decodeInterface_marshalable j v hv, decodeElems_marshalable rest vs' hvs⟩
    · simp at h
theorem decodeMembers_marshalable : ∀ (members : List (String × JSON)) (m m' : GoMap),
    marshalableEntries m = true → decodeMembers members m = some m' →
    marshalableEntries m' = true
  | [], m, m', hm, h => by
    simp [decodeMembers] at h; subst h; exact hm
  | (k, j) :: rest, m, m', hm, h => by
    unfold decodeMembers at h
    split at h
    · rename_i v hv
      exact decodeMembers_marshalable rest (mapSet m k v) m'
        (marshalableEntries_mapSet m k v hm (decodeInterface_marshalable j v hv)) h
    · simp at h
end

theorem bitLenAux_zero (fuel : Nat) : bitLenAux fuel 0 = 0 := by
  cases fuel <;> simp [bitLenAux]

theorem bitLenAux_spec : ∀ (fuel n : Nat), n ≤ fuel →
    n < 2 ^ bitLenAux fuel n ∧ (0 < n → 2 ^ (bitLenAux fuel n - 1) ≤ n) := by
  intro fuel
  induction fuel with
  | zero =>
    intro n hn
    have : n = 0 := by omega
    subst this
    simp [bitLenAux]
  | succ fuel ih =>
    intro n hn
    by_cases h0 : n = 0
    · subst h0; simp [bitLenAux]
    · have hstep : bitLenAux (fuel + 1) n = bitLenAux fuel (n / 2) + 1 := by
        simp [bitLenAux, h0]
      rw [hstep]
      have hle : n / 2 ≤ fuel := by omega
      obtain ⟨h1, h2⟩ := ih (n / 2) hle
      refine ⟨?_, fun _ => ?_⟩
      · rw [pow_succ]; omega
      · simp only [Nat.add_sub_cancel]
        by_cases hhalf : n / 2 = 0
        · rw [hhalf, bitLenAux_zero]; simp; omega
        · have h3 := h2 (by omega)
          have hk : 1 ≤ bitLenAux fuel (n / 2) := by
            by_contra hc
            have : bitLenAux fuel (n / 2) = 0 := by omega
            rw [this] at h1
            simp at h1
            exact hhalf h1
          have : 2 ^ bitLenAux fuel (n / 2) = 2 ^ (bitLenAux fuel (n / 2) - 1) * 2 := by
            rw [← pow_succ]; congr 1; omega
          omega

theorem lt_two_pow_bitLen (n : Nat) : n < 2 ^ bitLen n :=
  (bitLenAux_spec n n (Nat.le_refl n)).1

theorem two_pow_bitLen_le (n : Nat) (h : 0 < n) : 2 ^ (bitLen n - 1) ≤ n :=
  (bitLenAux_spec n n (Nat.le_refl n)).2 h

theorem bitLen_pos (n : Nat) (h : 0 < n) : 1 ≤ bitLen n := by
  by_contra hc
  have h0 : bitLen n = 0 := by omega
  have := lt_two_pow_bitLen n
  rw [h0] at this
  omega

theorem bitLen_le_of_lt (n k : Nat) (h : n < 2 ^ k) : bitLen n ≤ k := by
  by_contra hc
  by_cases h0 : n = 0
  · subst h0; simp [bitLen, bitLenAux_zero] at hc
  · have h1 := two_pow_bitLen_le n (by omega)
    have h2 : 2 ^ k ≤ 2 ^ (bitLen n - 1) := Nat.pow_le_pow_right (by norm_num) (by omega)
    omega

theorem bitLen_one : bitLen 1 = 1 := by decide

theorem floorLog2_one (a : Nat) (h : 0 < a) : floorLog2 a 1 = (bitLen a : Int) - 1 := by
  have hp := bitLen_pos a h
  have hle := two_pow_bitLen_le a h
  unfold floorLog2
  simp only [bitLen_one]
  have hd : ((bitLen a : Int) - ((1 : Nat) : Int)) = ((bitLen a - 1 : Nat) : Int) := by omega
  rw [hd]
  have : scaledLE 1 ((bitLen a - 1 : Nat) : Int) a = true := by
    unfold scaledLE
    simp [hle]
  rw [if_pos this]
  omega

theorem roundHalfEven_one (a : Nat) : roundHalfEven a 1 = a := by
  unfold roundHalfEven
  simp [Nat.mod_one]

/-- An integer of magnitude at most `2^53` is converted exactly. -/
theorem roundRatio_int (neg : Bool) (a : Nat) (h0 : 0 < a) (h : a ≤ 2 ^ 53) :
    ∃ f, roundRatio neg a 1 = some f ∧
      f.intValue = some ((if neg then -1 else 1) * (a : Int)) := by
  by_cases htop : a = 2 ^ 53
  · subst htop
    cases neg
    · exact ⟨Float64.finite false (2 ^ 52) 1, by decide, by decide⟩
    · exact ⟨Float64.finite true (2 ^ 52) 1, by decide, by decide⟩
  · have hlt : a < 2 ^ 53 := by omega
    have hL := bitLen_le_of_lt a 53 hlt
    have hp := bitLen_pos a h0
    have hlo := two_pow_bitLen_le a h0
    have hhi := lt_two_pow_bitLen a
    have hfl := floorLog2_one a h0
    unfold roundRatio
    simp only [hfl]
    have he : max ((bitLen a : Int) - 1 - 52) (-1074) = (bitLen a : Int) - 53 := by omega
    rw [he]
    by_cases h53 : bitLen a = 53
    · have hnn : (0 : Int) ≤ (bitLen a : Int) - 53 := by omega
      rw [if_pos hnn]
      have hz : ((bitLen a : Int) - 53).toNat = 0 := by omega
      rw [hz]
      simp only [pow_zero, Nat.mul_one, roundHalfEven_one]
      refine ⟨Float64.finite neg a ((bitLen a : Int) - 53), ?_, ?_⟩
      · unfold packFloat64
        rw [if_neg htop]
        have : ¬ (971 < (bitLen a : Int) - 53) := by omega
        rw [if_neg this]
      · simp only [Float64.intValue, if_pos hnn, hz, pow_zero, Nat.mul_one]
    · have hneg : ¬ (0 : Int) ≤ (bitLen a : Int) - 53 := by omega
      rw [if_neg hneg]
      have hz : (-((bitLen a : Int) - 53)).toNat = 53 - bitLen a := by omega
      rw [hz, roundHalfEven_one]
      have hm : a * 2 ^ (53 - bitLen a) < 2 ^ 53 := by
        calc a * 2 ^ (53 - bitLen a) < 2 ^ bitLen a * 2 ^ (53 - bitLen a) :=
              Nat.mul_lt_mul_of_pos_right hhi (by positivity)
          _ = 2 ^ 53 := by rw [← pow_add]; congr 1; omega
      refine ⟨Float64.finite neg (a * 2 ^ (53 - bitLen a)) ((bitLen a : Int) - 53), ?_, ?_⟩
      · unfold packFloat64
        rw [if_neg (by omega)]
        have : ¬ (971 < (bitLen a : Int) - 53) := by omega
        rw [if_neg this]
      · have hpos : 0 < 2 ^ (53 - bitLen a) := by positivity
        simp only [Float64.intValue, if_neg hneg, hz, Nat.mul_mod_left, if_true,
          Nat.mul_div_cancel _ hpos]

/-- `parseFloat64` is exact on the integers of magnitude at most `2^53`. -/
theorem parseFloat64_ofInt (z : Int) (h : z.natAbs ≤ 2 ^ 53) :
    ∃ f, parseFloat64 (JNumber.ofInt z) = some f ∧ f.intValue = some z := by
  unfold parseFloat64 JNumber.ofInt
  by_cases h0 : z.natAbs = 0
  · have hz : z = 0 := by omega
    subst hz
    refine ⟨Float64.finite false 0 (-1074), by simp, ?_⟩
    simp only [Float64.intValue, Nat.zero_mod, Nat.zero_div]
    simp
  · simp only [h0, if_false, le_refl, if_true, Int.toNat_zero, pow_zero, Nat.mul_one]
    obtain ⟨f, hf, hv⟩ := roundRatio_int (decide (z < 0)) z.natAbs (by omega) h
    refine ⟨f, hf, ?_⟩
    rw [hv]
    congr 1
    by_cases hneg : z < 0
    · have habs := Int.ofNat_natAbs_of_nonpos (le_of_lt hneg)
      simp only [hneg, decide_True, if_true]
      rw [habs]; ring
    · have habs := Int.natAbs_of_nonneg (not_lt.mp hneg)
      simp only [hneg, decide_False, Bool.false_eq_true, if_false]
      rw [habs]; ring

/-! ## The router: helper lemmas -/

theorem decodeRequestMember_marshalable (req req' : MCPRequest) (key : String) (j : JSON)
    (hreq : req.ID.marshalable = true) (h : decodeRequestMember req key j = some req') :
    req'.ID.marshalable = true := by
  unfold decodeRequestMember at h
  split at h
  · cases h; exact hreq
  · split at h
    · cases h; exact hreq
    · cases h
  · split at h
    · rename_i v hv
      cases h
      exact decodeInterface_marshalable j v hv
    · cases h
  · split at h
    · cases h; exact hreq
    · cases h
  · split at h
    · cases h; exact hreq
    · cases h

theorem decodeRequestMembers_marshalable : ∀ (members : List (String × JSON))
    (req req' : MCPRequest), req.ID.marshalable = true →
    decodeRequestMembers members req = some req' → req'.ID.marshalable = true
  | [], req, req', hreq, h => by
    simp [decodeRequestMembers] at h; subst h; exact hreq
  | (key, j) :: rest, req, req', hreq, h => by
    unfold decodeRequestMembers at h
    split at h
    · rename_i r hr
      exact decodeRequestMembers_marshalable rest r req'
        (decodeRequestMember_marshalable req r key j hreq hr) h
    · cases h

/-- The id of a decoded request is accepted by `json.Marshal`. -/
theorem unmarshalRequest_marshalable (line : Option JSON) (req : MCPRequest)
    (h : unmarshalRequest line = some req) : req.ID.marshalable = true := by
  unfold unmarshalRequest at h
  split at h
  · cases h
  · cases h; rfl
  · exact decodeRequestMembers_marshalable _ MCPRequest.zero _ rfl h
  · cases h

theorem createErrorResponse_ok (id : GoValue) (code : Int) (message : String)
    (hid : id.marshalable = true) :
    createErrorResponse id code message =
      Except.ok { JSONRPC := "2.0", ID := id, Result := none,
                  Error := some { Code := code, Message := message } } := by
  simp [createErrorResponse, jsonMarshal, MCPResponse.marshalable, hid]

theorem respondResult_spec (id : GoValue) (result : ResultValue)
    (hid : id.marshalable = true) :
    respondResult id result =
        Except.ok { JSONRPC := "2.0", ID := id, Result := some result, Error := none } ∨
    respondResult id result =
        Except.ok { JSONRPC := "2.0", ID := id, Result := none,
                    Error := some { Code := -32603, Message := "Internal error" } } := by
  unfold respondResult
  by_cases hr : result.marshalable = true
  · left
    simp [jsonMarshal, MCPResponse.marshalable, hid, hr]
  · right
    simp [jsonMarshal, MCPResponse.marshalable, hid, hr, createErrorResponse]

theorem respondResult_toolResult (id : GoValue) (t : MCPToolResult)
    (hid : id.marshalable = true) :
    respondResult id (ResultValue.toolResult t) =
      Except.ok { JSONRPC := "2.0", ID := id, Result := some (ResultValue.toolResult t),
                  Error := none } := by
  simp [respondResult, jsonMarshal, MCPResponse.marshalable, hid, ResultValue.marshalable]

theorem enumerateDevices_no_error (enc : JSONText) (c : YoLinkClient) (w : World)
    (a : Option GoMap) : (enumerateDevices enc c w a).1.2 = none := by
  unfold enumerateDevices
  split
  · rfl
  · split <;> rfl

theorem getDeviceStatus_no_error (enc : JSONText) (c : YoLinkClient) (w : World)
    (a : Option GoMap) : (getDeviceStatus enc c w a).1.2 = none := by
  unfold getDeviceStatus
  split
  · rfl
  · split
    · rfl
    · split <;> rfl
  · rfl

/-! ## Claims about the router -/

/-- C1 (amended). For every input line that is not well-formed JSON (an empty
line included), or whose top-level JSON value is a number, a string, a boolean
or an array, `HandleRequest` returns the response with error code -32700, id
null and no result, and touches neither the server nor the world. -/
theorem HandleRequest_parse_error (enc : JSONText) (s : MCPServer) (w : World)
    (line : Option JSON)
    (h : ∀ j, line = some j → j.isObject = false ∧ j.isNull = false) :
    HandleRequest enc s w line =
      (Except.ok { JSONRPC := "2.0", ID := GoValue.nil, Result := none,
                   Error := some { Code := -32700, Message := "Parse error" } }, s, w) := by
  have hdec : unmarshalRequest line = none := by
    cases line with
    | none => rfl
    | some j =>
      obtain ⟨ho, hn⟩ := h j rfl
      cases j <;> simp_all [unmarshalRequest, JSON.isObject, JSON.isNull]
  unfold HandleRequest
  rw [hdec]
  simp [createErrorResponse_ok GoValue.nil _ _ rfl]

/-- Witness of C1 (amended): a line that is not JSON, and the line `[1]`. -/
theorem HandleRequest_parse_error_witness :
    HandleRequest plainText freshServer offlineWorld none =
      (Except.ok { JSONRPC := "2.0", ID := GoValue.nil, Result := none,
                   Error := some { Code := -32700, Message := "Parse error" } },
        freshServer, offlineWorld) ∧
    HandleRequest plainText freshServer offlineWorld (some (JSON.array [jint 1])) =
      (Except.ok { JSONRPC := "2.0", ID := GoValue.nil, Result := none,
                   Error := some { Code := -32700, Message := "Parse error" } },
        freshServer, offlineWorld) :=
  ⟨HandleRequest_parse_error plainText freshServer offlineWorld none
      (fun j hj => by cases hj),
   HandleRequest_parse_error plainText freshServer offlineWorld (some (JSON.array [jint 1]))
      (fun j hj => by cases hj; exact ⟨rfl, rfl⟩)⟩

/-- Counterexample to C1: the line `null` is well-formed JSON whose top-level
value is not an object, and the response carries code -32601, not -32700. -/
theorem HandleRequest_null_line :
    JSON.isObject JSON.null = false ∧
    errorCode (HandleRequest plainText freshServer offlineWorld (some JSON.null)).1
      = some (-32601) ∧
    errorCode (HandleRequest plainText freshServer offlineWorld (some JSON.null)).1
      ≠ some (-32700) := by
  refine ⟨rfl, rfl, ?_⟩
  decide

/-- C2 (amended). For every request object that `json.Unmarshal` decodes without
error into an `MCPRequest` whose method is none of `initialize`, `tools/list`
and `tools/call`, `HandleRequest` returns the response with error code -32601
and the id the request decoded to, and touches neither the server nor the world. -/
theorem HandleRequest_unknown_method (enc : JSONText) (s : MCPServer) (w : World)
    (members : List (String × JSON)) (req : MCPRequest)
    (hdec : unmarshalRequest (some (JSON.object members)) = some req)
    (h1 : req.Method ≠ "initialize") (h2 : req.Method ≠ "tools/list")
    (h3 : req.Method ≠ "tools/call") :
    HandleRequest enc s w (some (JSON.object members)) =
      (Except.ok { JSONRPC := "2.0", ID := req.ID, Result := none,
                   Error := some { Code := -32601, Message := "Method not found" } },
        s, w) := by
  have hid := unmarshalRequest_marshalable _ _ hdec
  unfold HandleRequest
  rw [hdec]
  simp [h1, h2, h3, createErrorResponse_ok req.ID _ _ hid]

/-- Witness of C2 (amended): `{"jsonrpc":"2.0","id":"a","method":"ping","params":{}}`. -/
theorem HandleRequest_unknown_method_witness :
    HandleRequest plainText freshServer offlineWorld
        (some (JSON.object [("jsonrpc", jstr "2.0"), ("id", jstr "a"),
          ("method", jstr "ping"), ("params", JSON.object [])])) =
      (Except.ok { JSONRPC := "2.0", ID := GoValue.string "a", Result := none,
                   Error := some { Code := -32601, Message := "Method not found" } },
        freshServer, offlineWorld) :=
  HandleRequest_unknown_method plainText freshServer offlineWorld
    [("jsonrpc", jstr "2.0"), ("id", jstr "a"), ("method", jstr "ping"),
      ("params", JSON.object [])]
    { JSONRPC := "2.0", ID := GoValue.string "a", Method := "ping", Params := some [] }
    rfl (by decide) (by decide) (by decide)

/-- Counterexample to C2. (1) `{"jsonrpc":"2.0","id":7,"method":"ping","params":[1]}`
carries a number id and an unknown method, and the response carries code -32700
and a null id. (2) `{"jsonrpc":"2.0","id":9007199254740993,"method":"ping",
"params":{}}` is answered with code -32601 and the id `2^53`, not `2^53 + 1`. -/
theorem HandleRequest_unknown_method_array_params :
    errorCode (HandleRequest plainText freshServer offlineWorld
      (requestObject (jint 7) "ping" (JSON.array [jint 1]))).1 = some (-32700) ∧
    responseID (HandleRequest plainText freshServer offlineWorld
      (requestObject (jint 7) "ping" (JSON.array [jint 1]))).1 = some GoValue.nil ∧
    errorCode (HandleRequest plainText freshServer offlineWorld
      (requestObject (jint 9007199254740993) "ping" (JSON.object []))).1 = some (-32601) ∧
    responseID (HandleRequest plainText freshServer offlineWorld
      (requestObject (jint 9007199254740993) "ping" (JSON.object []))).1
      = some (GoValue.float64 (Float64.finite false 4503599627370496 1)) ∧
    Float64.intValue (Float64.finite false 4503599627370496 1) = some 9007199254740992 :=
  ⟨rfl, rfl, rfl, rfl, rfl⟩

theorem wellFormed_createErrorResponse (id : GoValue) (code : Int) (message : String)
    (hid : id.marshalable = true) :
    WellFormedResponse id (createErrorResponse id code message) := by
  rw [createErrorResponse_ok id code message hid]
  exact ⟨_, rfl, rfl, rfl, Or.inr ⟨rfl, rfl⟩⟩

theorem wellFormed_respondResult (id : GoValue) (result : ResultValue)
    (hid : id.marshalable = true) :
    WellFormedResponse id (respondResult id result) := by
  rcases respondResult_spec id result hid with h | h
  · rw [h]; exact ⟨_, rfl, rfl, rfl, Or.inl ⟨rfl, rfl⟩⟩
  · rw [h]; exact ⟨_, rfl, rfl, rfl, Or.inr ⟨rfl, rfl⟩⟩

theorem finishToolCall_ok (request : MCPRequest) (t : MCPToolResult)
    (hid : request.ID.marshalable = true) :
    finishToolCall request t none =
      Except.ok { JSONRPC := "2.0", ID := request.ID,
                  Result := some (ResultValue.toolResult t), Error := none } := by
  simp [finishToolCall, respondResult_toolResult request.ID t hid]

/-- What `handleToolCall` returns when the tool is `enumerate_devices`. -/
theorem handleToolCall_enumerate (enc : JSONText) (s : MCPServer) (w : World)
    (request : MCPRequest) (arguments : Option GoMap)
    (hid : request.ID.marshalable = true)
    (hname : mapGet request.Params "name" = some (GoValue.string "enumerate_devices"))
    (hargs : mapIndex request.Params "arguments" = GoValue.nil ∧ arguments = none ∨
      ∃ m, mapIndex request.Params "arguments" = GoValue.map m ∧ arguments = some m) :
    handleToolCall enc s w request =
      (Except.ok { JSONRPC := "2.0", ID := request.ID,
                   Result := some (ResultValue.toolResult
                     (enumerateDevices enc s.yolinkClient w arguments).1.1),
                   Error := none },
        { s with yolinkClient := (enumerateDevices enc s.yolinkClient w arguments).2.1 },
        (enumerateDevices enc s.yolinkClient w arguments).2.2) := by
  have hne := enumerateDevices_no_error enc s.yolinkClient w arguments
  rcases hres : enumerateDevices enc s.yolinkClient w arguments with ⟨⟨result, err⟩, c1, w1⟩
  rw [hres] at hne
  simp only at hne
  subst hne
  unfold handleToolCall
  rw [hname]
  rcases hargs with ⟨ha, rfl⟩ | ⟨m, ha, rfl⟩
  · simp only [ha, if_true, hres, finishToolCall_ok request result hid]
  · simp only [ha, if_true, hres, finishToolCall_ok request result hid]

/-- What `handleToolCall` returns when the tool is `get_device_status`. -/
theorem handleToolCall_status (enc : JSONText) (s : MCPServer) (w : World)
    (request : MCPRequest) (arguments : Option GoMap)
    (hid : request.ID.marshalable = true)
    (hname : mapGet request.Params "name" = some (GoValue.string "get_device_status"))
    (hargs : mapIndex request.Params "arguments" = GoValue.nil ∧ arguments = none ∨
      ∃ m, mapIndex request.Params "arguments" = GoValue.map m ∧ arguments = some m) :
    handleToolCall enc s w request =
      (Except.ok { JSONRPC := "2.0", ID := request.ID,
                   Result := some (ResultValue.toolResult
                     (getDeviceStatus enc s.yolinkClient w arguments).1.1),
                   Error := none },
        { s with yolinkClient := (getDeviceStatus enc s.yolinkClient w arguments).2.1 },
        (getDeviceStatus enc s.yolinkClient w arguments).2.2) := by
  have hne := getDeviceStatus_no_error enc s.yolinkClient w arguments
  rcases hres : getDeviceStatus enc s.yolinkClient w arguments with ⟨⟨result, err⟩, c1, w1⟩
  rw [hres] at hne
  simp only at hne
  subst hne
  have hdiff : ¬ ("get_device_status" = "enumerate_devices") := by decide
  unfold handleToolCall
  rw [hname]
  rcases hargs with ⟨ha, rfl⟩ | ⟨m, ha, rfl⟩
  · simp only [ha, hdiff, if_false, if_true, hres, finishToolCall_ok request result hid]
  · simp only [ha, hdiff, if_false, if_true, hres, finishToolCall_ok request result hid]

/-- Every branch of `handleToolCall` returns a well-formed response. -/
theorem wellFormed_handleToolCall (enc : JSONText) (s : MCPServer) (w : World)
    (request : MCPRequest) (hid : request.ID.marshalable = true) :
    WellFormedResponse request.ID (handleToolCall enc s w request).1 := by
  rcases hname : mapGet request.Params "name" with _ | v
  · unfold handleToolCall
    rw [hname]
    exact wellFormed_createErrorResponse _ _ _ hid
  · cases v with
    | string toolName =>
      rcases hargs : mapIndex request.Params "arguments" with _ | b | f | str | elems | m
      · by_cases he : toolName = "enumerate_devices"
        · subst he
          rw [handleToolCall_enumerate enc s w request none hid hname (Or.inl ⟨hargs, rfl⟩)]
          exact ⟨_, rfl, rfl, rfl, Or.inl ⟨rfl, rfl⟩⟩
        · by_cases hs : toolName = "get_device_status"
          · subst hs
            rw [handleToolCall_status enc s w request none hid hname (Or.inl ⟨hargs, rfl⟩)]
            exact ⟨_, rfl, rfl, rfl, Or.inl ⟨rfl, rfl⟩⟩
          · unfold handleToolCall
            rw [hname]
            simp only [hargs, he, hs, if_false]
            exact wellFormed_createErrorResponse _ _ _ hid
      · unfold handleToolCall
        rw [hname]
        simp only [hargs]
        exact wellFormed_createErrorResponse _ _ _ hid
      · unfold handleToolCall
        rw [hname]
        simp only [hargs]
        exact wellFormed_createErrorResponse _ _ _ hid
      · unfold handleToolCall
        rw [hname]
        simp only [hargs]
        exact wellFormed_createErrorResponse _ _ _ hid
      · unfold handleToolCall
        rw [hname]
        simp only [hargs]
        exact wellFormed_createErrorResponse _ _ _ hid
      · by_cases he : toolName = "enumerate_devices"
        · subst he
          rw [handleToolCall_enumerate enc s w request (some m) hid hname
            (Or.inr ⟨m, hargs, rfl⟩)]
          exact ⟨_, rfl, rfl, rfl, Or.inl ⟨rfl, rfl⟩⟩
        · by_cases hs : toolName = "get_device_status"
          · subst hs
            rw [handleToolCall_status enc s w request (some m) hid hname
              (Or.inr ⟨m, hargs, rfl⟩)]
            exact ⟨_, rfl, rfl, rfl, Or.inl ⟨rfl, rfl⟩⟩
          · unfold handleToolCall
            rw [hname]
            simp only [hargs, he, hs, if_false]
            exact wellFormed_createErrorResponse _ _ _ hid
    | nil => unfold handleToolCall; rw [hname]; exact wellFormed_createErrorResponse _ _ _ hid
    | bool b => unfold handleToolCall; rw [hname]; exact wellFormed_createErrorResponse _ _ _ hid
    | float64 f =>
      unfold handleToolCall; rw [hname]; exact wellFormed_createErrorResponse _ _ _ hid
    | slice l => unfold handleToolCall; rw [hname]; exact wellFormed_createErrorResponse _ _ _ hid
    | map l => unfold handleToolCall; rw [hname]; exact wellFormed_createErrorResponse _ _ _ hid

/-- Every request that decodes gets a well-formed response with its decoded id. -/
theorem wellFormed_HandleRequest_decoded (enc : JSONText) (s : MCPServer) (w : World)
    (line : Option JSON) (req : MCPRequest) (hdec : unmarshalRequest line = some req) :
    WellFormedResponse req.ID (HandleRequest enc s w line).1 := by
  have hid := unmarshalRequest_marshalable line req hdec
  unfold HandleRequest
  rw [hdec]
  simp only
  split_ifs
  · exact wellFormed_respondResult _ _ hid
  · exact wellFormed_respondResult _ _ hid
  · exact wellFormed_handleToolCall enc s w req hid
  · exact wellFormed_createErrorResponse _ _ _ hid

theorem decodeRequestMember_id (req req' : MCPRequest) (key : String) (j : JSON)
    (h : decodeRequestMember req key j = some req') :
    (requestField key = some RequestField.id → decodeInterface j = some req'.ID) ∧
    (requestField key ≠ some RequestField.id → req'.ID = req.ID) := by
  unfold decodeRequestMember at h
  split at h
  · rename_i hk
    cases h
    exact ⟨fun hc => (by rw [hk] at hc; cases hc), fun _ => rfl⟩
  · rename_i hk
    split at h
    · cases h
      exact ⟨fun hc => (by rw [hk] at hc; cases hc), fun _ => rfl⟩
    · cases h
  · rename_i hk
    split at h
    · rename_i v hv
      cases h
      exact ⟨fun _ => hv, fun hc => absurd hk hc⟩
    · cases h
  · rename_i hk
    split at h
    · cases h
      exact ⟨fun hc => (by rw [hk] at hc; cases hc), fun _ => rfl⟩
    · cases h
  · rename_i hk
    split at h
    · cases h
      exact ⟨fun hc => (by rw [hk] at hc; cases hc), fun _ => rfl⟩
    · cases h

/-- The decoded id is the decoding of the last `id` member, and is left alone
when there is none. -/
theorem decodeRequestMembers_id : ∀ (members : List (String × JSON)) (req req' : MCPRequest),
    decodeRequestMembers members req = some req' →
    (lastField RequestField.id members = none → req'.ID = req.ID) ∧
    (∀ j, lastField RequestField.id members = some j → decodeInterface j = some req'.ID)
  | [], req, req', h => by
    simp [decodeRequestMembers] at h
    subst h
    simp [lastField]
  | (key, j) :: rest, req, req', h => by
    unfold decodeRequestMembers at h
    split at h
    · rename_i r hr
      obtain ⟨ih1, ih2⟩ := decodeRequestMembers_id rest r req' h
      obtain ⟨hm1, hm2⟩ := decodeRequestMember_id req r key j hr
      unfold lastField
      cases hl : lastField RequestField.id rest with
      | some j' =>
        simp only
        exact ⟨fun hc => (by cases hc), fun j'' hj => (by cases hj; exact ih2 j' hl)⟩
      | none =>
        simp only
        by_cases hk : requestField key = some RequestField.id
        · rw [if_pos hk]
          refine ⟨fun hc => (by cases hc), fun j'' hj => ?_⟩
          cases hj
          rw [ih1 hl]
          exact hm1 hk
        · rw [if_neg hk]
          refine ⟨fun _ => ?_, fun j'' hj => (by cases hj)⟩
          rw [ih1 hl]
          exact hm2 hk
    · cases h

/-- C3 (amended). For every request object that `json.Unmarshal` decodes without
error (whatever its method), `HandleRequest` returns a response whose id is the
id the request decoded to: null when the object has no `id` member or its last
`id` member is null, the same string when it is a string, and the `float64`
holding the same integer when it is an integer of magnitude at most `2^53`. -/
theorem HandleRequest_id_round_trip (enc : JSONText) (s : MCPServer) (w : World)
    (members : List (String × JSON)) (req : MCPRequest)
    (hdec : unmarshalRequest (some (JSON.object members)) = some req) :
    ∃ r, (HandleRequest enc s w (some (JSON.object members))).1 = Except.ok r ∧
      r.ID = req.ID ∧
      (lastField RequestField.id members = none → r.ID = GoValue.nil) ∧
      (lastField RequestField.id members = some JSON.null → r.ID = GoValue.nil) ∧
      (∀ str, lastField RequestField.id members = some (JSON.string str) →
        r.ID = GoValue.string str) ∧
      (∀ z : Int, z.natAbs ≤ 2 ^ 53 → lastField RequestField.id members = some (jint z) →
        ∃ f, r.ID = GoValue.float64 f ∧ f.intValue = some z) := by
  obtain ⟨r, hr, _, hid, _⟩ := wellFormed_HandleRequest_decoded enc s w _ req hdec
  have hmem : decodeRequestMembers members MCPRequest.zero = some req := hdec
  obtain ⟨h1, h2⟩ := decodeRequestMembers_id members MCPRequest.zero req hmem
  refine ⟨r, hr, hid, ?_, ?_, ?_, ?_⟩
  · intro hl
    rw [hid, h1 hl]
    rfl
  · intro hl
    have := h2 _ hl
    simp only [decodeInterface, Option.some.injEq] at this
    rw [hid, ← this]
  · intro str hl
    have := h2 _ hl
    simp only [decodeInterface, Option.some.injEq] at this
    rw [hid, ← this]
  · intro z hz hl
    have hj := h2 _ hl
    obtain ⟨f, hf, hv⟩ := parseFloat64_ofInt z hz
    simp only [jint, decodeInterface, hf, Option.some.injEq] at hj
    exact ⟨f, by rw [hid, ← hj], hv⟩

/-- Witness of C3 (amended): `{"jsonrpc":"2.0","id":"a","method":"ping","params":{}}`. -/
theorem HandleRequest_id_round_trip_witness :
    ∃ r, (HandleRequest plainText freshServer offlineWorld
        (some (JSON.object [("jsonrpc", jstr "2.0"), ("id", jstr "a"),
          ("method", jstr "ping"), ("params", JSON.object [])]))).1 = Except.ok r ∧
      r.ID = GoValue.string "a" :=
  match HandleRequest_id_round_trip plainText freshServer offlineWorld
      [("jsonrpc", jstr "2.0"), ("id", jstr "a"), ("method", jstr "ping"),
        ("params", JSON.object [])]
      { JSONRPC := "2.0", ID := GoValue.string "a", Method := "ping", Params := some [] }
      rfl with
  | ⟨r, hr, hid, _⟩ => ⟨r, hr, hid⟩

/-- Counterexample to C3. (1) The request `{"jsonrpc":"2.0",
"id":9007199254740993,"method":"initialize"}` has the integer id `2^53 + 1`, and
the id of the response is the `float64` holding `2^53`. (2) The request
`{"jsonrpc":"2.0","id":"a","method":"initialize","params":[1]}` has the string
id `a`, and the id of the response is null. -/
theorem HandleRequest_id_above_two_pow_53 :
    responseID (HandleRequest plainText freshServer offlineWorld
      (some (JSON.object [("jsonrpc", jstr "2.0"), ("id", jint 9007199254740993),
        ("method", jstr "initialize")]))).1
      = some (GoValue.float64 (Float64.finite false 4503599627370496 1)) ∧
    Float64.intValue (Float64.finite false 4503599627370496 1) = some 9007199254740992 ∧
    Float64.intValue (Float64.finite false 4503599627370496 1) ≠ some 9007199254740993 ∧
    responseID (HandleRequest plainText freshServer offlineWorld
      (requestObject (jstr "a") "initialize" (JSON.array [jint 1]))).1 = some GoValue.nil := by
  refine ⟨rfl, rfl, ?_, rfl⟩
  decide

/-- C6. For every input line, every server state and every behaviour of the
clock and of the upstream endpoints, `HandleRequest` returns a response line and
no error, the response carries `jsonrpc = "2.0"`, and exactly one of the members
`result` and `error` is written. -/
theorem HandleRequest_total (enc : JSONText) (s : MCPServer) (w : World)
    (line : Option JSON) :
    ∃ r, (HandleRequest enc s w line).1 = Except.ok r ∧ r.JSONRPC = "2.0" ∧
      (("result" ∈ r.wireKeys ∧ "error" ∉ r.wireKeys) ∨
       ("result" ∉ r.wireKeys ∧ "error" ∈ r.wireKeys)) := by
  have key : ∃ id, WellFormedResponse id (HandleRequest enc s w line).1 := by
    cases hdec : unmarshalRequest line with
    | none =>
      refine ⟨GoValue.nil, ?_⟩
      unfold HandleRequest
      rw [hdec]
      exact wellFormed_createErrorResponse _ _ _ rfl
    | some req => exact ⟨req.ID, wellFormed_HandleRequest_decoded enc s w line req hdec⟩
  obtain ⟨id, r, hr, hv, _, hre⟩ := key
  refine ⟨r, hr, hv, ?_⟩
  rcases hre with ⟨h1, h2⟩ | ⟨h1, h2⟩
  · left
    simp [MCPResponse.wireKeys, h1, h2]
  · right
    simp [MCPResponse.wireKeys, h1, h2]

theorem HandleRequest_tools_call (enc : JSONText) (s : MCPServer) (w : World)
    (line : Option JSON) (req : MCPRequest) (hdec : unmarshalRequest line = some req)
    (hm : req.Method = "tools/call") :
    HandleRequest enc s w line = handleToolCall enc s w req := by
  have h1 : ¬ ("tools/call" = "initialize") := by decide
  have h2 : ¬ ("tools/call" = "tools/list") := by decide
  unfold HandleRequest
  rw [hdec]
  simp only [hm, h1, h2, if_false, if_true]

/-- C4. For every `tools/call` request whose `params.arguments` is absent, null
or an object: when `params` has no `name` member (or is absent) or `params.name`
is not a string, `handleToolCall` returns an error response with code -32602;
when `params.name` is a string other than `enumerate_devices` and
`get_device_status`, it returns an error response with code -32601; in both
cases the id of the request is echoed, and the server and the world are left
as they were (no upstream call is made). -/
theorem handleToolCall_bad_name (enc : JSONText) (s : MCPServer) (w : World)
    (line : Option JSON) (req : MCPRequest) (hdec : unmarshalRequest line = some req)
    (hm : req.Method = "tools/call")
    (hargs : mapIndex req.Params "arguments" = GoValue.nil ∨
      ∃ m, mapIndex req.Params "arguments" = GoValue.map m) :
    HandleRequest enc s w line = handleToolCall enc s w req ∧
    ((mapGet req.Params "name" = none ∨
        ∃ v, mapGet req.Params "name" = some v ∧ ∀ t, v ≠ GoValue.string t) →
      ∃ msg, handleToolCall enc s w req =
        (Except.ok { JSONRPC := "2.0", ID := req.ID, Result := none,
                     Error := some { Code := -32602, Message := msg } }, s, w)) ∧
    (∀ t, mapGet req.Params "name" = some (GoValue.string t) →
      t ≠ "enumerate_devices" → t ≠ "get_device_status" →
      handleToolCall enc s w req =
        (Except.ok { JSONRPC := "2.0", ID := req.ID, Result := none,
                     Error := some { Code := -32601, Message := "Unknown tool" } }, s, w)) := by
  have hid := unmarshalRequest_marshalable line req hdec
  refine ⟨HandleRequest_tools_call enc s w line req hdec hm, ?_, ?_⟩
  · rintro (hn | ⟨v, hv, hns⟩)
    · refine ⟨"Missing 'name' parameter", ?_⟩
      unfold handleToolCall
      rw [hn]
      simp only [createErrorResponse_ok req.ID _ _ hid]
    · refine ⟨"Invalid 'name' parameter type", ?_⟩
      unfold handleToolCall
      rw [hv]
      cases v with
      | string t => exact absurd rfl (hns t)
      | nil => simp only [createErrorResponse_ok req.ID _ _ hid]
      | bool b => simp only [createErrorResponse_ok req.ID _ _ hid]
      | float64 f => simp only [createErrorResponse_ok req.ID _ _ hid]
      | slice l => simp only [createErrorResponse_ok req.ID _ _ hid]
      | map l => simp only [createErrorResponse_ok req.ID _ _ hid]
  · intro t ht h1 h2
    unfold handleToolCall
    rw [ht]
    rcases hargs with ha | ⟨m, ha⟩
    · simp only [ha, h1, h2, if_false, createErrorResponse_ok req.ID _ _ hid]
    · simp only [ha, h1, h2, if_false, createErrorResponse_ok req.ID _ _ hid]

/-- Witness of C4: `{"jsonrpc":"2.0","id":"a","method":"tools/call",
"params":{"name":"reboot"}}` is answered with code -32601. -/
theorem handleToolCall_bad_name_witness :
    handleToolCall plainText freshServer offlineWorld
        { JSONRPC := "2.0", ID := GoValue.string "a", Method := "tools/call",
          Params := some [("name", GoValue.string "reboot")] } =
      (Except.ok { JSONRPC := "2.0", ID := GoValue.string "a", Result := none,
                   Error := some { Code := -32601, Message := "Unknown tool" } },
        freshServer, offlineWorld) :=
  (handleToolCall_bad_name plainText freshServer offlineWorld
    (requestObject (jstr "a") "tools/call" (JSON.object [("name", jstr "reboot")]))
    { JSONRPC := "2.0", ID := GoValue.string "a", Method := "tools/call",
      Params := some [("name", GoValue.string "reboot")] }
    rfl rfl (Or.inl rfl)).2.2 "reboot" rfl (by decide) (by decide)

/-- C5 (amended). For every request line that `json.Unmarshal` decodes without
error into a `tools/call` request with `params.name = "get_device_status"` whose
`params.arguments` is absent, null or an object without a `device_id` key,
`HandleRequest` returns a successful response (a result, no error member, the
id the request decoded to) whose result has `isError = true` and the single
text block `Missing required parameter: device_id`; the server (its credential
state included) and the world are left as they were: no token or API call is
issued. -/
theorem get_device_status_missing_device_id (enc : JSONText) (s : MCPServer) (w : World)
    (line : Option JSON) (req : MCPRequest) (hdec : unmarshalRequest line = some req)
    (hm : req.Method = "tools/call")
    (hname : mapGet req.Params "name" = some (GoValue.string "get_device_status"))
    (hargs : mapIndex req.Params "arguments" = GoValue.nil ∨
      ∃ m, mapIndex req.Params "arguments" = GoValue.map m ∧
        mapGet (some m) "device_id" = none) :
    HandleRequest enc s w line =
      (Except.ok { JSONRPC := "2.0", ID := req.ID,
                   Result := some (ResultValue.toolResult
                     { Content := [[("type", "text"),
                                    ("text", "Missing required parameter: device_id")]],
                       IsError := true }),
                   Error := none }, s, w) := by
  have hid := unmarshalRequest_marshalable line req hdec
  rw [HandleRequest_tools_call enc s w line req hdec hm]
  rcases hargs with ha | ⟨m, ha, hm'⟩
  · rw [handleToolCall_status enc s w req none hid hname (Or.inl ⟨ha, rfl⟩)]
    simp [getDeviceStatus, mapGet, textResult]
  · rw [handleToolCall_status enc s w req (some m) hid hname (Or.inr ⟨m, ha, rfl⟩)]
    simp [getDeviceStatus, hm', textResult]

/-- Witness of C5 (amended): `{"jsonrpc":"2.0","id":"a","method":"tools/call",
"params":{"name":"get_device_status","arguments":{}}}`. -/
theorem get_device_status_missing_device_id_witness :
    HandleRequest plainText freshServer offlineWorld
        (requestObject (jstr "a") "tools/call"
          (JSON.object [("name", jstr "get_device_status"), ("arguments", JSON.object [])])) =
      (Except.ok { JSONRPC := "2.0", ID := GoValue.string "a",
                   Result := some (ResultValue.toolResult
                     { Content := [[("type", "text"),
                                    ("text", "Missing required parameter: device_id")]],
                       IsError := true }),
                   Error := none }, freshServer, offlineWorld) :=
  get_device_status_missing_device_id plainText freshServer offlineWorld
    (requestObject (jstr "a") "tools/call"
      (JSON.object [("name", jstr "get_device_status"), ("arguments", JSON.object [])]))
    { JSONRPC := "2.0", ID := GoValue.string "a", Method := "tools/call",
      Params := some [("name", GoValue.string "get_device_status"),
                      ("arguments", GoValue.map [])] }
    rfl rfl rfl (Or.inr ⟨[], rfl, rfl⟩)

set_option maxRecDepth 100000 in
/-- Counterexample to C5. (1) The line `{"jsonrpc":"2.0","id":"a",
"method":"tools/call","params":{"name":"get_device_status",
"arguments":{"x":1e400}}}` names `get_device_status` with an arguments object
that has no `device_id` key; the number `1e400` is out of the `float64` range,
`json.Unmarshal` fails, and the response carries the error code -32700, a null
id and no tool result. (2) The line `{"jsonrpc":"2.0","id":9007199254740993,
"method":"tools/call","params":{"name":"get_device_status","arguments":{}}}` is
answered with the tool result and the id `2^53`, not `2^53 + 1`. -/
theorem get_device_status_undecodable_or_large_id :
    mapGet (some [("x", GoValue.nil)]) "device_id" = none ∧
    HandleRequest plainText freshServer offlineWorld
        (requestObject (jstr "a") "tools/call"
          (JSON.object [("name", jstr "get_device_status"),
            ("arguments", JSON.object
              [("x", JSON.number { neg := false, digits := 1, exp10 := 400 })])])) =
      (Except.ok { JSONRPC := "2.0", ID := GoValue.nil, Result := none,
                   Error := some { Code := -32700, Message := "Parse error" } },
        freshServer, offlineWorld) ∧
    HandleRequest plainText freshServer offlineWorld
        (requestObject (jint 9007199254740993) "tools/call"
          (JSON.object [("name", jstr "get_device_status"), ("arguments", JSON.object [])])) =
      (Except.ok { JSONRPC := "2.0",
                   ID := GoValue.float64 (Float64.finite false 4503599627370496 1),
                   Result := some (ResultValue.toolResult
                     { Content := [[("type", "text"),
                                    ("text", "Missing required parameter: device_id")]],
                       IsError := true }),
                   Error := none }, freshServer, offlineWorld) ∧
    Float64.intValue (Float64.finite false 4503599627370496 1) = some 9007199254740992 :=
  ⟨rfl, rfl, rfl, rfl⟩

/-! ## The upstream client: helper lemmas -/

theorem tokenStillValid_api (c : YoLinkClient) (w : World) :
    (tokenStillValid c w).2.apiCalls = w.apiCalls ∧
    (tokenStillValid c w).2.apiEndpoint = w.apiEndpoint ∧
    (tokenStillValid c w).2.tokenCalls = w.tokenCalls ∧
    (tokenStillValid c w).2.tokenEndpoint = w.tokenEndpoint ∧
    (tokenStillValid c w).2.clock = w.clock := by
  unfold tokenStillValid
  split <;> simp [World.now]

theorem requestToken_api (c : YoLinkClient) (w : World) :
    (requestToken c w).2.2.apiCalls = w.apiCalls ∧
    (requestToken c w).2.2.apiEndpoint = w.apiEndpoint ∧
    (requestToken c w).2.2.tokenCalls = w.tokenCalls ++ [tokenRequest c] := by
  unfold requestToken
  rcases hp : w.postToken (tokenRequest c) with ⟨resp, w2⟩
  have hw2 : w2 = { w with tokenCalls := w.tokenCalls ++ [tokenRequest c] } := by
    simp [World.postToken] at hp
    exact hp.2.symm
  subst hw2
  cases resp with
  | failed err => simp
  | response st body decoded =>
    simp only
    split_ifs
    · simp
    · cases decoded <;> simp [World.now]

theorem requestToken_ok_inv (c : YoLinkClient) (w : World)
    (h : (requestToken c w).1 = none) :
    ∃ body authResp,
      w.tokenEndpoint w.tokenCalls.length (tokenRequest c) =
        HTTPResult.response 200 body (Except.ok authResp) := by
  unfold requestToken at h
  simp only [World.postToken] at h
  cases hr : w.tokenEndpoint w.tokenCalls.length (tokenRequest c) with
  | failed err => rw [hr] at h; simp at h
  | response st body decoded =>
    rw [hr] at h
    by_cases hst : st = 200
    · subst hst
      cases decoded with
      | error e => simp at h
      | ok authResp => exact ⟨body, authResp, rfl⟩
    · simp [hst] at h

theorem authenticate_api (c : YoLinkClient) (w : World) :
    (authenticate c w).2.2.apiCalls = w.apiCalls ∧
    (authenticate c w).2.2.apiEndpoint = w.apiEndpoint := by
  obtain ⟨h1, h2, _⟩ := tokenStillValid_api c w
  unfold authenticate
  split_ifs
  · exact ⟨h1, h2⟩
  · obtain ⟨h3, h4, _⟩ := requestToken_api c (tokenStillValid c w).2
    exact ⟨h3.trans h1, h4.trans h2⟩

theorem authenticate_ok_inv (c : YoLinkClient) (w : World)
    (h : (authenticate c w).1 = none) : TokenStageOK c w := by
  unfold authenticate at h
  unfold TokenStageOK
  by_cases hv : (tokenStillValid c w).1 = true
  · exact Or.inl hv
  · rw [if_neg hv] at h
    exact Or.inr (requestToken_ok_inv c _ h)

/-- When `makeRequest` returns a response, authentication succeeded and the
response is the answer of the API endpoint to the one request it logged. -/
theorem makeRequest_ok_inv (c : YoLinkClient) (w : World) (payload : Payload)
    (st : Int) (body : String) (decoded : APIBody)
    (h : (makeRequest c w payload).1 = Except.ok (st, body, decoded)) :
    APIStageReply c w payload st body decoded ∧
    (makeRequest c w payload).2.1 = (authenticate c w).2.1 ∧
    (makeRequest c w payload).2.2.apiCalls = w.apiCalls ++
      [{ authorization := "Bearer " ++ (authenticate c w).2.1.accessToken,
         payload := payload }] := by
  obtain ⟨hcalls, hep⟩ := authenticate_api c w
  unfold makeRequest at h ⊢
  rcases ha : authenticate c w with ⟨err, c1, w1⟩
  rw [ha] at h hcalls hep
  simp only at hcalls hep
  cases err with
  | some e => simp at h
  | none =>
    simp only [World.postAPI] at h ⊢
    cases hr : w1.apiEndpoint w1.apiCalls.length
        { authorization := "Bearer " ++ c1.accessToken, payload := payload } with
    | failed e => rw [hr] at h; simp at h
    | response st' body' decoded' =>
      rw [hr] at h
      simp only [Except.ok.injEq, Prod.mk.injEq] at h
      obtain ⟨rfl, rfl, rfl⟩ := h
      refine ⟨⟨authenticate_ok_inv c w (by rw [ha]), by rw [ha], ?_⟩, ?_, ?_⟩
      · rw [ha]; exact hr
      · rfl
      · simp [hcalls]

/-- When `makeRequest` returns an error, it has sent at most one API request,
and the client it leaves is the one `authenticate` left. -/
theorem makeRequest_client (c : YoLinkClient) (w : World) (payload : Payload) :
    (makeRequest c w payload).2.1 = (authenticate c w).2.1 := by
  unfold makeRequest
  rcases ha : authenticate c w with ⟨err, c1, w1⟩
  cases err with
  | some e => rfl
  | none =>
    simp only [World.postAPI]
    cases hr : w1.apiEndpoint w1.apiCalls.length
        { authorization := "Bearer " ++ c1.accessToken, payload := payload } <;> rfl

theorem makeRequest_of_auth (c : YoLinkClient) (w : World) (payload : Payload)
    (hauth : (authenticate c w).1 = none) :
    (makeRequest c w payload).2.2.apiCalls = w.apiCalls ++
      [{ authorization := "Bearer " ++ (authenticate c w).2.1.accessToken,
         payload := payload }] ∧
    ∀ st body decoded,
      (authenticate c w).2.2.apiEndpoint (authenticate c w).2.2.apiCalls.length
        { authorization := "Bearer " ++ (authenticate c w).2.1.accessToken,
          payload := payload } = HTTPResult.response st body decoded →
      (makeRequest c w payload).1 = Except.ok (st, body, decoded) := by
  obtain ⟨hcalls, _⟩ := authenticate_api c w
  unfold makeRequest
  rcases ha : authenticate c w with ⟨err, c1, w1⟩
  rw [ha] at hauth hcalls
  simp only at hauth hcalls
  subst hauth
  simp only [World.postAPI]
  cases hr : w1.apiEndpoint w1.apiCalls.length
      { authorization := "Bearer " ++ c1.accessToken, payload := payload } with
  | failed e =>
    refine ⟨by simp [hcalls], ?_⟩
    intro st body decoded h
    cases h
  | response st' body' decoded' =>
    refine ⟨by simp [hcalls], ?_⟩
    intro st body decoded h
    cases h
    rfl

/-- When `GetDevices` returns a list, every upstream stage succeeded, and it
has sent exactly one API request, the device list call. -/
theorem GetDevices_ok_inv (c : YoLinkClient) (w : World) (devices : List YoLinkDevice)
    (h : (GetDevices c w).1 = Except.ok devices) :
    DeviceListOK c w devices ∧
    (GetDevices c w).2.2.apiCalls = w.apiCalls ++
      [{ authorization := "Bearer " ++ (GetDevices c w).2.1.accessToken,
         payload := deviceListPayload w.now.1 }] := by
  unfold GetDevices at h ⊢
  rcases hmr : makeRequest c w.now.2 (deviceListPayload w.now.1) with ⟨res, c1, w1⟩
  rw [hmr] at h
  cases res with
  | error e => simp at h
  | ok x =>
    obtain ⟨st, body, decoded⟩ := x
    have hmr1 : (makeRequest c w.now.2 (deviceListPayload w.now.1)).1
        = Except.ok (st, body, decoded) := by rw [hmr]
    obtain ⟨hstage, hcl, hcalls⟩ := makeRequest_ok_inv c w.now.2 _ st body decoded hmr1
    rw [hmr] at hcl hcalls
    simp only at hcl hcalls
    simp only at h ⊢
    by_cases hst : st = 200
    · subst hst
      simp only [ne_eq, not_true_eq_false, if_false] at h ⊢
      cases hd : decoded.asDeviceList with
      | error e => rw [hd] at h; simp at h
      | ok resp =>
        rw [hd] at h
        simp only at h ⊢
        by_cases hcode : resp.Code = "000000"
        · simp only [hcode, ne_eq, not_true_eq_false, if_false, Except.ok.injEq] at h ⊢
          refine ⟨⟨body, decoded, resp, hstage, hd, hcode, h⟩, ?_⟩
          rw [hcalls, hcl]
          simp [World.now]
        · simp [hcode] at h
    · simp [hst] at h

theorem findDevice_eq_find (deviceID : String) (devices : List YoLinkDevice) :
    (∀ d, devices.find? (fun x => decide (x.DeviceID = deviceID)) = some d →
      findDevice deviceID devices = (d.Token, d.DeviceType)) ∧
    (devices.find? (fun x => decide (x.DeviceID = deviceID)) = none →
      findDevice deviceID devices = ("", "")) := by
  induction devices with
  | nil => simp [findDevice]
  | cons x rest ih =>
    by_cases hx : x.DeviceID = deviceID
    · simp [findDevice, List.find?, hx]
    · simp only [findDevice, List.find?, hx, decide_False, if_false]
      exact ih

theorem findDevice_empty_of_no_token (deviceID : String) (devices : List YoLinkDevice)
    (hno : ∀ d ∈ devices, d.DeviceID = deviceID → d.Token = "") :
    (findDevice deviceID devices).1 = "" := by
  induction devices with
  | nil => rfl
  | cons x rest ih =>
    by_cases hx : x.DeviceID = deviceID
    · simp only [findDevice, hx, if_true]
      exact hno x (List.mem_cons_self x rest) hx
    · simp only [findDevice, hx, if_false]
      exact ih (fun d hd => hno d (List.mem_cons_of_mem x hd))

/-- C9. For every device list `GetDevices` returns and every `deviceID` such
that no device of the list with that id has a non-empty token,
`GetDeviceStatus` fails with `device not found or device token not available`,
leaving the client and the world as `GetDevices` left them: exactly one API
request has been sent, the `Home.getDeviceList` call, and no `getState` call.
The tool `get_device_status` then yields `isError = true` with a text that
contains `not found`. -/
theorem GetDeviceStatus_not_found (enc : JSONText) (c : YoLinkClient) (w : World)
    (deviceID : String) (devices : List YoLinkDevice)
    (hlist : (GetDevices c w).1 = Except.ok devices)
    (hno : ∀ d ∈ devices, d.DeviceID = deviceID → d.Token = "") :
    GetDeviceStatus c w deviceID =
      (Except.error "device not found or device token not available",
        (GetDevices c w).2.1, (GetDevices c w).2.2) ∧
    (GetDeviceStatus c w deviceID).2.2.apiCalls = w.apiCalls ++
      [{ authorization := "Bearer " ++ (GetDevices c w).2.1.accessToken,
         payload := { method := "Home.getDeviceList", targetDevice := none, token := none,
                      timestamp := unixSeconds (w.clock w.clockReads) } }] ∧
    (∀ arguments, mapGet arguments "device_id" = some (GoValue.string deviceID) →
      (getDeviceStatus enc c w arguments).1.1 =
        { Content := [[("type", "text"),
            ("text", "Failed to get device status: device " ++ "not found"
              ++ " or device token not available")]],
          IsError := true }) := by
  have hcalls := (GetDevices_ok_inv c w devices hlist).2
  have hfind := findDevice_empty_of_no_token deviceID devices hno
  have hres : GetDeviceStatus c w deviceID =
      (Except.error "device not found or device token not available",
        (GetDevices c w).2.1, (GetDevices c w).2.2) := by
    unfold GetDeviceStatus
    rcases hg : GetDevices c w with ⟨res, c1, w1⟩
    rw [hg] at hlist
    simp only at hlist
    subst hlist
    simp only [hfind, if_true]
  refine ⟨hres, ?_, ?_⟩
  · rw [hres]
    exact hcalls
  · intro arguments harg
    unfold getDeviceStatus
    rw [harg]
    simp only [hres]
    rfl

/-- Witness of C9: the upstream lists one device `Y`, and the status of `X` is asked. -/
theorem GetDeviceStatus_not_found_witness :
    GetDeviceStatus freshClient
        (servingWorld (fun _ => tokenResponse "tok" 3600) [sampleDevice "Y" "T" "THSensor"])
        "X" =
      (Except.error "device not found or device token not available",
        (GetDevices freshClient
          (servingWorld (fun _ => tokenResponse "tok" 3600)
            [sampleDevice "Y" "T" "THSensor"])).2.1,
        (GetDevices freshClient
          (servingWorld (fun _ => tokenResponse "tok" 3600)
            [sampleDevice "Y" "T" "THSensor"])).2.2) :=
  (GetDeviceStatus_not_found plainText freshClient
    (servingWorld (fun _ => tokenResponse "tok" 3600) [sampleDevice "Y" "T" "THSensor"])
    "X" [sampleDevice "Y" "T" "THSensor"] rfl
    (fun d hd hid => by
      simp only [List.mem_singleton] at hd
      subst hd
      exact absurd hid (by decide))).1

/-- C10 (amended). For every device list `GetDevices` returns and every
`deviceID` for which the first device of the list with that id has a non-empty
token, provided the authentication that precedes the second call succeeds,
`GetDeviceStatus` sends a second API request whose payload has method = that
device's `DeviceType` followed by `.getState`, token = that device's token and
targetDevice = `deviceID`; and when the endpoint answers it with HTTP 200, a
decodable body and envelope code `"000000"`, it returns the envelope's data. -/
theorem GetDeviceStatus_status_call (c : YoLinkClient) (w : World) (deviceID : String)
    (devices : List YoLinkDevice) (d : YoLinkDevice)
    (hlist : (GetDevices c w).1 = Except.ok devices)
    (hfirst : devices.find? (fun x => decide (x.DeviceID = deviceID)) = some d)
    (htok : d.Token ≠ "")
    (hauth : (authenticate (GetDevices c w).2.1 (GetDevices c w).2.2.now.2).1 = none) :
    (GetDeviceStatus c w deviceID).2.2.apiCalls = (GetDevices c w).2.2.apiCalls ++
      [{ authorization := "Bearer " ++
           (authenticate (GetDevices c w).2.1 (GetDevices c w).2.2.now.2).2.1.accessToken,
         payload := { method := d.DeviceType ++ ".getState", targetDevice := some deviceID,
                      token := some d.Token,
                      timestamp := unixSeconds (GetDevices c w).2.2.now.1 } }] ∧
    (∀ body decoded resp,
      (authenticate (GetDevices c w).2.1 (GetDevices c w).2.2.now.2).2.2.apiEndpoint
          (authenticate (GetDevices c w).2.1 (GetDevices c w).2.2.now.2).2.2.apiCalls.length
          { authorization := "Bearer " ++
              (authenticate (GetDevices c w).2.1 (GetDevices c w).2.2.now.2).2.1.accessToken,
            payload := { method := d.DeviceType ++ ".getState",
                         targetDevice := some deviceID, token := some d.Token,
                         timestamp := unixSeconds (GetDevices c w).2.2.now.1 } }
        = HTTPResult.response 200 body decoded →
      decoded.asDeviceStatus = Except.ok resp → resp.Code = "000000" →
      (GetDeviceStatus c w deviceID).1 = Except.ok resp.Data) := by
  have hfind := (findDevice_eq_find deviceID devices).1 d hfirst
  have hstep : GetDeviceStatus c w deviceID =
      requestDeviceStatus (GetDevices c w).2.1 (GetDevices c w).2.2 d.DeviceType deviceID
        d.Token := by
    unfold GetDeviceStatus
    rcases hg : GetDevices c w with ⟨res, c1, w1⟩
    rw [hg] at hlist
    simp only at hlist
    subst hlist
    simp only [hfind, htok, if_false]
  rw [hstep]
  generalize (GetDevices c w).2.1 = c1 at hauth ⊢
  generalize (GetDevices c w).2.2 = w1 at hauth ⊢
  obtain ⟨hcalls, hreply⟩ := makeRequest_of_auth c1 w1.now.2
    (deviceStatusPayload d.DeviceType deviceID d.Token w1.now.1) hauth
  have hnow : w1.now.2.apiCalls = w1.apiCalls := rfl
  rw [hnow] at hcalls
  constructor
  · unfold requestDeviceStatus
    rcases hmr : makeRequest c1 w1.now.2
        (deviceStatusPayload d.DeviceType deviceID d.Token w1.now.1) with ⟨res, c2, w3⟩
    rw [hmr] at hcalls
    simp only at hcalls
    cases res with
    | error e => exact hcalls
    | ok x =>
      obtain ⟨st, body, decoded⟩ := x
      simp only
      split_ifs
      · exact hcalls
      · cases decoded.asDeviceStatus with
        | error e => exact hcalls
        | ok resp =>
          simp only
          split_ifs <;> exact hcalls
  · intro body decoded resp hr hd hcode
    have hok := hreply 200 body decoded hr
    unfold requestDeviceStatus
    rcases hmr : makeRequest c1 w1.now.2
        (deviceStatusPayload d.DeviceType deviceID d.Token w1.now.1) with ⟨res, c2, w3⟩
    rw [hmr] at hok
    simp only at hok
    subst hok
    simp [hd, hcode]

/-- Witness of C10 (amended): the upstream lists the device `X` with token `T`
and type `THSensor`. -/
theorem GetDeviceStatus_status_call_witness :
    (GetDeviceStatus freshClient
        (servingWorld (fun _ => tokenResponse "tok" 3600) [sampleDevice "X" "T" "THSensor"])
        "X").2.2.apiCalls =
      (GetDevices freshClient
        (servingWorld (fun _ => tokenResponse "tok" 3600)
          [sampleDevice "X" "T" "THSensor"])).2.2.apiCalls ++
      [{ authorization := "Bearer tok",
         payload := { method := "THSensor.getState", targetDevice := some "X",
                      token := some "T", timestamp := 1750000002 } }] :=
  (GetDeviceStatus_status_call freshClient
    (servingWorld (fun _ => tokenResponse "tok" 3600) [sampleDevice "X" "T" "THSensor"])
    "X" [sampleDevice "X" "T" "THSensor"] (sampleDevice "X" "T" "THSensor")
    rfl rfl (by decide) rfl).1

/-- Counterexample to C10. (1) The list holds two entries with id `X`, the first
with an empty token and the second with the token `T`: `GetDeviceStatus` fails
with the not-found error and sends no second request. (2) The list holds the
device `X` with token `T`, the token has expired before the second call and the
token endpoint refuses the connection: no second request is sent either. -/
theorem GetDeviceStatus_duplicate_ids :
    (GetDeviceStatus freshClient
        (servingWorld (fun _ => tokenResponse "tok" 3600)
          [sampleDevice "X" "" "THSensor", sampleDevice "X" "T" "THSensor"]) "X").1
      = Except.error "device not found or device token not available" ∧
    (GetDeviceStatus freshClient
        (servingWorld (fun _ => tokenResponse "tok" 3600)
          [sampleDevice "X" "" "THSensor", sampleDevice "X" "T" "THSensor"])
        "X").2.2.apiCalls.length = 1 ∧
    (GetDeviceStatus freshClient
        (servingWorld (fun n => if n = 0 then tokenResponse "tok" 0
          else HTTPResult.failed "connection refused")
          [sampleDevice "X" "T" "THSensor"]) "X").1
      = Except.error "failed to authenticate: connection refused" ∧
    (GetDeviceStatus freshClient
        (servingWorld (fun n => if n = 0 then tokenResponse "tok" 0
          else HTTPResult.failed "connection refused")
          [sampleDevice "X" "T" "THSensor"]) "X").2.2.apiCalls.length = 1 :=
  ⟨rfl, rfl, rfl, rfl⟩

theorem wrapInt64_of_range (x : Int) (hlo : -2 ^ 63 ≤ x) (hhi : x < 2 ^ 63) :
    wrapInt64 x = x := by
  unfold wrapInt64
  have h : (x + 2 ^ 63) % 2 ^ 64 = x + 2 ^ 63 :=
    Int.emod_eq_of_lt (by omega) (by omega)
  rw [h]
  omega

theorem requestToken_ok (c : YoLinkClient) (w : World) (body : String)
    (authResp : YoLinkAuthResponse)
    (h : w.tokenEndpoint w.tokenCalls.length (tokenRequest c) =
      HTTPResult.response 200 body (Except.ok authResp)) :
    requestToken c w =
      (none,
        { c with accessToken := authResp.AccessToken,
                 tokenExpiry := w.clock w.clockReads
                   + wrapInt64 (authResp.ExpiresIn * 1000000000) },
        { w with tokenCalls := w.tokenCalls ++ [tokenRequest c],
                 clockReads := w.clockReads + 1 }) := by
  unfold requestToken
  simp [World.postToken, h, World.now]

/-- C8 (amended). Let a first `authenticate` find no valid token and receive a
successful token response (HTTP 200, decodable body) that reports a non-empty
`access_token` and an `expires_in` whose value in nanoseconds fits in `int64`,
and let `t0` be the clock reading at which the token is stored. Then the first
`authenticate` sends one request to the token endpoint; an `authenticate` at any
time `t1 < t0 + expires_in` seconds sends none and leaves the client unchanged;
and an `authenticate` at any time `t2 ≥ t0 + expires_in` seconds sends a new one. -/
theorem authenticate_memoized (c : YoLinkClient) (w : World) (body : String)
    (authResp : YoLinkAuthResponse)
    (hneed : (tokenStillValid c w).1 = false)
    (hreply : (tokenStillValid c w).2.tokenEndpoint (tokenStillValid c w).2.tokenCalls.length
      (tokenRequest c) = HTTPResult.response 200 body (Except.ok authResp))
    (htok : authResp.AccessToken ≠ "")
    (hlo : -2 ^ 63 ≤ authResp.ExpiresIn * 1000000000)
    (hhi : authResp.ExpiresIn * 1000000000 < 2 ^ 63) :
    (authenticate c w).1 = none ∧
    (authenticate c w).2.2.tokenCalls = w.tokenCalls ++ [tokenRequest c] ∧
    (∀ w2 : World,
      w2.clock w2.clockReads <
        (tokenStillValid c w).2.clock (tokenStillValid c w).2.clockReads
          + authResp.ExpiresIn * 1000000000 →
      authenticate (authenticate c w).2.1 w2 =
        (none, (authenticate c w).2.1, { w2 with clockReads := w2.clockReads + 1 })) ∧
    (∀ w3 : World,
      (tokenStillValid c w).2.clock (tokenStillValid c w).2.clockReads
          + authResp.ExpiresIn * 1000000000 ≤ w3.clock w3.clockReads →
      (authenticate (authenticate c w).2.1 w3).2.2.tokenCalls =
        w3.tokenCalls ++ [tokenRequest c]) := by
  obtain ⟨_, _, hcalls, _, _⟩ := tokenStillValid_api c w
  have hfirst : authenticate c w = requestToken c (tokenStillValid c w).2 := by
    unfold authenticate
    rw [hneed]
    simp
  rw [hfirst, requestToken_ok c _ body authResp hreply,
    wrapInt64_of_range _ hlo hhi]
  generalize (tokenStillValid c w).2.clock (tokenStillValid c w).2.clockReads = t0
  refine ⟨rfl, by simp [hcalls], ?_, ?_⟩
  · intro w2 ht
    unfold authenticate tokenStillValid
    simp [htok, World.now, ht]
  · intro w3 ht
    have hnot : ¬ (w3.clock w3.clockReads < t0 + authResp.ExpiresIn * 1000000000) :=
      not_lt.mpr ht
    unfold authenticate tokenStillValid
    simp only [ne_eq, htok, not_false_eq_true, if_true, World.now, hnot, decide_False,
      Bool.false_eq_true, if_false]
    exact (requestToken_api _ _).2.2

/-- Witness of C8 (amended): a fresh client, a token `tok` valid for 3600 seconds. -/
theorem authenticate_memoized_witness :
    (authenticate freshClient (servingWorld (fun _ => tokenResponse "tok" 3600) [])).1 = none ∧
    (authenticate freshClient
      (servingWorld (fun _ => tokenResponse "tok" 3600) [])).2.2.tokenCalls =
      [] ++ [tokenRequest freshClient] :=
  match authenticate_memoized freshClient
      (servingWorld (fun _ => tokenResponse "tok" 3600) []) ""
      { AccessToken := "tok", TokenType := "bearer", ExpiresIn := 3600, Code := 0,
        Message := "" }
      rfl rfl (by decide) (by decide) (by decide) with
  | ⟨h1, h2, _⟩ => ⟨h1, h2⟩

/-- Counterexample to C8. (1) The token response reports an empty
`access_token` and `expires_in = 3600`: the first `authenticate` stores it at
`t0`, and a second `authenticate` one second later sends a second request to the
token endpoint. (2) The token response reports the token `tok` and
`expires_in = 9223372037`, whose value in nanoseconds overflows `int64`: the
stored expiry lies before `t0`, and a second `authenticate` one second later
sends a second request to the token endpoint. -/
theorem authenticate_empty_token_or_overflow :
    (authenticate freshClient (servingWorld (fun _ => tokenResponse "" 3600) [])).1 = none ∧
    (authenticate freshClient
      (servingWorld (fun _ => tokenResponse "" 3600) [])).2.2.clockReads = 1 ∧
    sampleClock 0 ≤ sampleClock 1 ∧ sampleClock 1 < sampleClock 0 + 3600 * 1000000000 ∧
    (authenticate
      (authenticate freshClient (servingWorld (fun _ => tokenResponse "" 3600) [])).2.1
      (authenticate freshClient
        (servingWorld (fun _ => tokenResponse "" 3600) [])).2.2).2.2.tokenCalls.length = 2 ∧
    (authenticate freshClient
      (servingWorld (fun _ => tokenResponse "tok" 9223372037) [])).1 = none ∧
    (authenticate freshClient
      (servingWorld (fun _ => tokenResponse "tok" 9223372037) [])).2.2.clockReads = 1 ∧
    sampleClock 1 < sampleClock 0 + 9223372037 * 1000000000 ∧
    (authenticate
      (authenticate freshClient
        (servingWorld (fun _ => tokenResponse "tok" 9223372037) [])).2.1
      (authenticate freshClient
        (servingWorld (fun _ => tokenResponse "tok" 9223372037) [])).2.2).2.2.tokenCalls.length
      = 2 := by
  refine ⟨rfl, rfl, by decide, by decide, rfl, rfl, rfl, by decide, rfl⟩

theorem requestDeviceStatus_ok_inv (c : YoLinkClient) (w : World)
    (deviceType deviceID deviceToken : String) (data : Option GoMap)
    (h : (requestDeviceStatus c w deviceType deviceID deviceToken).1 = Except.ok data) :
    DeviceStatusOK c w deviceType deviceID deviceToken data := by
  unfold requestDeviceStatus at h
  rcases hmr : makeRequest c w.now.2
      (deviceStatusPayload deviceType deviceID deviceToken w.now.1) with ⟨res, c1, w1⟩
  rw [hmr] at h
  cases res with
  | error e => simp at h
  | ok x =>
    obtain ⟨st, body, decoded⟩ := x
    have hmr1 : (makeRequest c w.now.2
        (deviceStatusPayload deviceType deviceID deviceToken w.now.1)).1
        = Except.ok (st, body, decoded) := by rw [hmr]
    obtain ⟨hstage, _, _⟩ := makeRequest_ok_inv c w.now.2 _ st body decoded hmr1
    simp only at h
    by_cases hst : st = 200
    · subst hst
      simp only [ne_eq, not_true_eq_false, if_false] at h
      cases hd : decoded.asDeviceStatus with
      | error e => rw [hd] at h; simp at h
      | ok resp =>
        rw [hd] at h
        simp only at h
        by_cases hcode : resp.Code = "000000"
        · simp only [hcode, ne_eq, not_true_eq_false, if_false, Except.ok.injEq] at h
          exact ⟨body, decoded, resp, hstage, hd, hcode, h⟩
        · simp [hcode] at h
    · simp [hst] at h

/-- When `GetDeviceStatus` returns a status, every upstream stage succeeded and
the device was found with a non-empty token. -/
theorem GetDeviceStatus_ok_inv (c : YoLinkClient) (w : World) (deviceID : String)
    (data : Option GoMap) (h : (GetDeviceStatus c w deviceID).1 = Except.ok data) :
    ∃ devices, DeviceListOK c w devices ∧ (findDevice deviceID devices).1 ≠ "" ∧
      DeviceStatusOK (GetDevices c w).2.1 (GetDevices c w).2.2
        (findDevice deviceID devices).2 deviceID (findDevice deviceID devices).1 data := by
  unfold GetDeviceStatus at h
  rcases hg : GetDevices c w with ⟨res, c1, w1⟩
  rw [hg] at h
  cases res with
  | error e => simp at h
  | ok devices =>
    have hg1 : (GetDevices c w).1 = Except.ok devices := by rw [hg]
    simp only at h
    by_cases hf : (findDevice deviceID devices).1 = ""
    · simp [hf] at h
    · rw [if_neg hf] at h
      exact ⟨devices, (GetDevices_ok_inv c w devices hg1).1, hf,
        requestDeviceStatus_ok_inv c1 w1 _ _ _ data h⟩

theorem enumerateDevices_spec (enc : JSONText) (c : YoLinkClient) (w : World)
    (a : Option GoMap) :
    (∀ err, (GetDevices c w).1 = Except.error err →
      (enumerateDevices enc c w a).1.1 =
        { Content := [[("type", "text"), ("text", "Failed to enumerate devices: " ++ err)]],
          IsError := true }) ∧
    ((enumerateDevices enc c w a).1.1.IsError = false →
      ∃ devices, DeviceListOK c w devices) := by
  unfold enumerateDevices
  rcases hg : GetDevices c w with ⟨res, c1, w1⟩
  cases res with
  | error e =>
    refine ⟨fun err herr => ?_, fun hf => ?_⟩
    · cases herr; rfl
    · simp [textResult] at hf
  | ok devices =>
    have hg1 : (GetDevices c w).1 = Except.ok devices := by rw [hg]
    refine ⟨fun err herr => (by cases herr), fun _ => ?_⟩
    exact ⟨devices, (GetDevices_ok_inv c w devices hg1).1⟩

theorem getDeviceStatus_spec (enc : JSONText) (c : YoLinkClient) (w : World)
    (a : Option GoMap) :
    (∀ deviceID err, mapGet a "device_id" = some (GoValue.string deviceID) →
      (GetDeviceStatus c w deviceID).1 = Except.error err →
      (getDeviceStatus enc c w a).1.1 =
        { Content := [[("type", "text"), ("text", "Failed to get device status: " ++ err)]],
          IsError := true }) ∧
    ((getDeviceStatus enc c w a).1.1.IsError = false →
      ∃ deviceID devices data, mapGet a "device_id" = some (GoValue.string deviceID) ∧
        DeviceListOK c w devices ∧ (findDevice deviceID devices).1 ≠ "" ∧
        DeviceStatusOK (GetDevices c w).2.1 (GetDevices c w).2.2
          (findDevice deviceID devices).2 deviceID (findDevice deviceID devices).1 data) := by
  unfold getDeviceStatus
  cases hget : mapGet a "device_id" with
  | none =>
    refine ⟨fun deviceID err hd => (by cases hd), fun hf => ?_⟩
    simp [textResult] at hf
  | some v =>
    cases v with
    | string deviceID =>
      simp only
      rcases hg : GetDeviceStatus c w deviceID with ⟨res, c1, w1⟩
      cases res with
      | error e =>
        refine ⟨fun deviceID' err hd herr => ?_, fun hf => ?_⟩
        · cases hd
          rw [hg] at herr
          cases herr
          rfl
        · simp [textResult] at hf
      | ok data =>
        have hg1 : (GetDeviceStatus c w deviceID).1 = Except.ok data := by rw [hg]
        refine ⟨fun deviceID' err hd herr => ?_, fun _ => ?_⟩
        · cases hd
          rw [hg] at herr
          cases herr
        · obtain ⟨devices, h1, h2, h3⟩ := GetDeviceStatus_ok_inv c w deviceID data hg1
          exact ⟨deviceID, devices, data, rfl, h1, h2, h3⟩
    | nil =>
      exact ⟨fun deviceID err hd => (by cases hd), fun hf => (by simp [textResult] at hf)⟩
    | bool b =>
      exact ⟨fun deviceID err hd => (by cases hd), fun hf => (by simp [textResult] at hf)⟩
    | float64 f =>
      exact ⟨fun deviceID err hd => (by cases hd), fun hf => (by simp [textResult] at hf)⟩
    | slice l =>
      exact ⟨fun deviceID err hd => (by cases hd), fun hf => (by simp [textResult] at hf)⟩
    | map l =>
      exact ⟨fun deviceID err hd => (by cases hd), fun hf => (by simp [textResult] at hf)⟩

/-- C7. For every `tools/call` request naming `enumerate_devices` or
`get_device_status` (arguments absent, null or an object) and every behaviour of
the clock and of the upstream endpoints, the response is a successful response
that carries the tool result and no error member (so never the internal error
-32603): the two tool handlers return a nil error. Whenever the client call fails with an error `err`, the result has
`isError = true` and one text block holding `err` after the tool's prefix; and
`isError = false` only when every upstream stage succeeded: the token is valid
or the token endpoint answers 200 with a decodable body, the API endpoint
answers 200 with a decodable body and envelope code `"000000"`, and (for the
status) the device is found with a non-empty token. -/
theorem tool_call_never_protocol_error (enc : JSONText) (s : MCPServer) (w : World)
    (line : Option JSON) (req : MCPRequest) (arguments : Option GoMap)
    (hdec : unmarshalRequest line = some req) (hm : req.Method = "tools/call")
    (hargs : mapIndex req.Params "arguments" = GoValue.nil ∧ arguments = none ∨
      ∃ m, mapIndex req.Params "arguments" = GoValue.map m ∧ arguments = some m) :
    (enumerateDevices enc s.yolinkClient w arguments).1.2 = none ∧
    (getDeviceStatus enc s.yolinkClient w arguments).1.2 = none ∧
    (mapGet req.Params "name" = some (GoValue.string "enumerate_devices") →
      HandleRequest enc s w line =
        (Except.ok { JSONRPC := "2.0", ID := req.ID,
                     Result := some (ResultValue.toolResult
                       (enumerateDevices enc s.yolinkClient w arguments).1.1),
                     Error := none },
          { s with yolinkClient := (enumerateDevices enc s.yolinkClient w arguments).2.1 },
          (enumerateDevices enc s.yolinkClient w arguments).2.2) ∧
      (∀ err, (GetDevices s.yolinkClient w).1 = Except.error err →
        (enumerateDevices enc s.yolinkClient w arguments).1.1 =
          { Content := [[("type", "text"),
                         ("text", "Failed to enumerate devices: " ++ err)]],
            IsError := true }) ∧
      ((enumerateDevices enc s.yolinkClient w arguments).1.1.IsError = false →
        ∃ devices, DeviceListOK s.yolinkClient w devices)) ∧
    (mapGet req.Params "name" = some (GoValue.string "get_device_status") →
      HandleRequest enc s w line =
        (Except.ok { JSONRPC := "2.0", ID := req.ID,
                     Result := some (ResultValue.toolResult
                       (getDeviceStatus enc s.yolinkClient w arguments).1.1),
                     Error := none },
          { s with yolinkClient := (getDeviceStatus enc s.yolinkClient w arguments).2.1 },
          (getDeviceStatus enc s.yolinkClient w arguments).2.2) ∧
      (∀ deviceID err, mapGet arguments "device_id" = some (GoValue.string deviceID) →
        (GetDeviceStatus s.yolinkClient w deviceID).1 = Except.error err →
        (getDeviceStatus enc s.yolinkClient w arguments).1.1 =
          { Content := [[("type", "text"),
                         ("text", "Failed to get device status: " ++ err)]],
            IsError := true }) ∧
      ((getDeviceStatus enc s.yolinkClient w arguments).1.1.IsError = false →
        ∃ deviceID devices data,
          mapGet arguments "device_id" = some (GoValue.string deviceID) ∧
          DeviceListOK s.yolinkClient w devices ∧ (findDevice deviceID devices).1 ≠ "" ∧
          DeviceStatusOK (GetDevices s.yolinkClient w).2.1 (GetDevices s.yolinkClient w).2.2
            (findDevice deviceID devices).2 deviceID (findDevice deviceID devices).1
            data)) := by
  have hid := unmarshalRequest_marshalable line req hdec
  have hcall := HandleRequest_tools_call enc s w line req hdec hm
  refine ⟨enumerateDevices_no_error enc s.yolinkClient w arguments,
    getDeviceStatus_no_error enc s.yolinkClient w arguments, ?_, ?_⟩
  · intro hname
    refine ⟨?_, (enumerateDevices_spec enc s.yolinkClient w arguments).1,
      (enumerateDevices_spec enc s.yolinkClient w arguments).2⟩
    rw [hcall]
    exact handleToolCall_enumerate enc s w req arguments hid hname hargs
  · intro hname
    refine ⟨?_, (getDeviceStatus_spec enc s.yolinkClient w arguments).1,
      (getDeviceStatus_spec enc s.yolinkClient w arguments).2⟩
    rw [hcall]
    exact handleToolCall_status enc s w req arguments hid hname hargs

/-- Witness of C7: `enumerate_devices` while the token endpoint refuses the
connection. -/
theorem tool_call_never_protocol_error_witness :
    HandleRequest plainText freshServer offlineWorld
        (requestObject (jstr "a") "tools/call"
          (JSON.object [("name", jstr "enumerate_devices")])) =
      (Except.ok { JSONRPC := "2.0", ID := GoValue.string "a",
                   Result := some (ResultValue.toolResult
                     (enumerateDevices plainText freshClient offlineWorld none).1.1),
                   Error := none },
        { freshServer with
          yolinkClient := (enumerateDevices plainText freshClient offlineWorld none).2.1 },
        (enumerateDevices plainText freshClient offlineWorld none).2.2) ∧
    (enumerateDevices plainText freshClient offlineWorld none).1.1 =
      { Content := [[("type", "text"),
          ("text", "Failed to enumerate devices: failed to authenticate: connection refused")]],
        IsError := true } :=
  ⟨((tool_call_never_protocol_error plainText freshServer offlineWorld
      (requestObject (jstr "a") "tools/call"
        (JSON.object [("name", jstr "enumerate_devices")]))
      { JSONRPC := "2.0", ID := GoValue.string "a", Method := "tools/call",
        Params := some [("name", GoValue.string "enumerate_devices")] }
      none rfl rfl (Or.inl ⟨rfl, rfl⟩)).2.2.1 rfl).1, rfl⟩

end YoLink
